import Mathlib

/-!
# Verification of the session / device-registry / executable-cache subsystem

The repository's notebooks all exercise one recurring subsystem: a device
attachment registry, an on-disk executable cache, compiled model sessions,
and a lifecycle manager that releases devices when the last notebook
variable referencing a session goes away.  The notebooks under `src/` are
callers of that subsystem (they call `compile`, `detachFromDevice`,
`del pipeline`, and configure `executable_cache_dir`); the subsystem itself
is not part of the sources, so its operations are modelled here from the
specification.  The `executable_cache_dir` computations are embedded
directly from the notebook sources.
-/

/-- Device identifiers (opaque handles supplied by the device inventory
provider at bootstrap). -/
abbrev DeviceId := Nat

/-- Session identifiers. -/
abbrev SessionId := Nat

/-- Model identity hashes. -/
abbrev ModelId := Nat

/-- Modelled from the spec: a ShapeSignature is a canonical, hashable key
capturing shapes, dtypes and configuration flags; all that matters to the
subsystem is equality of keys, so it is abstracted as a `Nat`. -/
abbrev ShapeSig := Nat

/-- Opaque compiled artifact blobs. -/
abbrev Artifact := Nat

/-- Modelled from the spec: device state, `Free`, `Reserved`, or
`Attached` with a recorded owning session. -/
inductive DevState where
  | free
  | reserved
  | attached (owner : SessionId)
deriving DecidableEq

/-- One device record of the registry inventory: identifier and state. -/
structure DeviceRec where
  did : DeviceId
  st : DevState
deriving DecidableEq

/-- Modelled from the spec: the DeviceAttachmentRegistry inventory, the
process-wide list of device records (bootstrap data fixes the order and
the identifiers, which are unique). -/
abbrev Registry := List DeviceRec

/-- Modelled from the spec: a DeviceSet is an ordered sequence of devices
reserved together as one atomic unit. -/
abbrev DeviceSet := List DeviceId

/-- Modelled from the spec: the error taxonomy of section 7. -/
inductive Err where
  | insufficientDevices
  | shapeMismatch
  | sessionDestroyed
  | invalidTransition
  | unknownSession
deriving DecidableEq

/-- Whether a device record is in the `Free` state. -/
def isFree (r : DeviceRec) : Bool :=
  match r.st with
  | DevState.free => true
  | _ => false

/-- Number of Free devices anywhere in the inventory. -/
def freeCount (reg : Registry) : Nat :=
  (reg.filter isFree).length

/-- The first `count` Free devices of the inventory, in inventory order. -/
def takeFree (reg : Registry) (count : Nat) : DeviceSet :=
  ((reg.filter isFree).take count).map (fun r => r.did)

/-- Mark the Free devices listed in `ds` as Reserved (the Free→Reserved
transition of `reserve`). -/
def markReserved (reg : Registry) (ds : DeviceSet) : Registry :=
  reg.map (fun r => if r.did ∈ ds ∧ r.st = DevState.free then { r with st := DevState.reserved } else r)

/-- Modelled from the spec: `reserve(count)` atomically takes `count` Free
devices, marks them Reserved and returns the DeviceSet handle; it fails
with `InsufficientDevices` when fewer than `count` Free devices exist
anywhere in the inventory, and no partial reservation is ever returned. -/
def reserve (reg : Registry) (count : Nat) : Except Err (DeviceSet × Registry) :=
  if freeCount reg < count then Except.error Err.insufficientDevices
  else
    let ds := takeFree reg count
    Except.ok (ds, markReserved reg ds)

/-- Modelled from the spec: `attach(DeviceSet, session)` transitions the
Reserved devices of the set to Attached and records the owning session. -/
def attach (reg : Registry) (ds : DeviceSet) (owner : SessionId) : Registry :=
  reg.map (fun r => if r.did ∈ ds ∧ r.st = DevState.reserved then { r with st := DevState.attached owner } else r)

/-- Modelled from the spec: `release(DeviceSet)` transitions
Attached/Reserved devices to Free unconditionally; releasing an
already-Free set is a no-op, so the operation is idempotent. -/
def release (reg : Registry) (ds : DeviceSet) : Registry :=
  reg.map (fun r => if r.did ∈ ds then { r with st := DevState.free } else r)

/-- State of a device in the registry, by identifier (`none` when the
identifier is not part of the inventory). -/
def regState (reg : Registry) (d : DeviceId) : Option DevState :=
  (reg.find? (fun r => decide (r.did = d))).map (fun r => r.st)

/-- Modelled from the spec: `inventory_snapshot()`, the read-only view of
device → state used by observability tooling. -/
def inventory_snapshot (reg : Registry) : List (DeviceId × DevState) :=
  reg.map (fun r => (r.did, r.st))

/-- Modelled from the spec: an ExecutableEntry value, an opaque compiled
artifact together with its device-count requirement metadata. -/
structure ExecutableEntry where
  artifact : Artifact
  devCount : Nat
deriving DecidableEq

/-- Modelled from the spec: the ExecutableCache, keyed by
(model identity hash, ShapeSignature). -/
abbrev Cache := List ((ModelId × ShapeSig) × ExecutableEntry)

/-- Modelled from the spec: `lookup(model_id, shape_sig)`, a pure read. -/
def lookup (c : Cache) (m : ModelId) (sig : ShapeSig) : Option ExecutableEntry :=
  (c.find? (fun e => decide (e.1 = (m, sig)))).map (fun e => e.2)

/-- Modelled from the spec: `store(model_id, shape_sig, artifact)` inserts
a new entry; an existing entry for the key is silently replaced
(last-compile-wins). -/
def store (c : Cache) (m : ModelId) (sig : ShapeSig) (e : ExecutableEntry) : Cache :=
  ((m, sig), e) :: c.filter (fun x => decide (x.1 ≠ (m, sig)))

/-- Modelled from the spec: `evict(model_id)` removes all entries for a
model identity. -/
def evict (c : Cache) (m : ModelId) : Cache :=
  c.filter (fun x => decide (x.1.1 ≠ m))

/-- Modelled from the spec: the CompiledSession lifecycle states. -/
inductive SessionState where
  | created
  | compiling
  | ready
  | detached
  | destroyed
deriving DecidableEq

/-- Modelled from the spec: a CompiledSession owns at most one DeviceSet
(empty list when none) and at most one active ExecutableEntry reference;
`devReq` is the model's declared device-count requirement and `shape` the
currently bound ShapeSignature. -/
structure Session where
  sid : SessionId
  model : ModelId
  devReq : Nat
  st : SessionState
  shape : Option ShapeSig
  devs : DeviceSet
  exe : Option ExecutableEntry
deriving DecidableEq

/-- Modelled from the spec: the external model compiler, treated as a pure
(slow) function from model graph and ShapeSignature to an opaque
artifact. -/
def externalCompile (m : ModelId) (sig : ShapeSig) : Artifact :=
  Nat.pair m sig

/-- Modelled from the spec: the whole single-process system state — the
shared registry, the executable cache, the live sessions, and a call
counter on the compiler stub used to observe recompilation cost. -/
structure Sys where
  reg : Registry
  cache : Cache
  sessions : List Session
  compilerCalls : Nat
deriving DecidableEq

/-- Find a live session by identifier. -/
def findSession (sys : Sys) (sid : SessionId) : Option Session :=
  sys.sessions.find? (fun s => decide (s.sid = sid))

/-- Replace the session carrying `s.sid` by `s`. -/
def updateSess (ss : List Session) (s : Session) : List Session :=
  ss.map (fun t => if t.sid = s.sid then s else t)

/-- System with one session record replaced. -/
def setSession (sys : Sys) (s : Session) : Sys :=
  { sys with sessions := updateSess sys.sessions s }

/-- Modelled from the spec: `compile(shape_sig)` — valid from `Created`,
`Detached`, or `Ready` with a different shape_sig than currently bound;
looks up the ExecutableCache; on hit skips recompilation; on miss reserves
a DeviceSet sized to the model's declared requirement, performs the
external compilation step, stores the result, attaches the DeviceSet and
transitions to `Ready`.  On reservation failure the session remains in its
prior state and `InsufficientDevices` is surfaced.  A destroyed session
fails with `SessionDestroyed`. -/
def compileOp (sys : Sys) (sid : SessionId) (sig : ShapeSig) : Except Err Sys :=
  match findSession sys sid with
  | none => Except.error Err.unknownSession
  | some s =>
    if s.st = SessionState.destroyed then Except.error Err.sessionDestroyed
    else if ¬ (s.st = SessionState.created ∨ s.st = SessionState.detached ∨
               (s.st = SessionState.ready ∧ s.shape ≠ some sig)) then
      Except.error Err.invalidTransition
    else
      match lookup sys.cache s.model sig with
      | some e =>
        if s.st = SessionState.ready then
          Except.ok (setSession sys { s with shape := some sig, exe := some e })
        else
          match reserve sys.reg s.devReq with
          | Except.error err => Except.error err
          | Except.ok (ds, reg1) =>
            Except.ok (setSession { sys with reg := attach reg1 ds s.sid }
              { s with st := SessionState.ready, shape := some sig, devs := ds, exe := some e })
      | none =>
        if s.st = SessionState.ready then
          let e : ExecutableEntry := ⟨externalCompile s.model sig, s.devReq⟩
          Except.ok (setSession
            { sys with cache := store sys.cache s.model sig e,
                       compilerCalls := sys.compilerCalls + 1 }
            { s with shape := some sig, exe := some e })
        else
          match reserve sys.reg s.devReq with
          | Except.error err => Except.error err
          | Except.ok (ds, reg1) =>
            let e : ExecutableEntry := ⟨externalCompile s.model sig, s.devReq⟩
            Except.ok (setSession
              { sys with reg := attach reg1 ds s.sid,
                         cache := store sys.cache s.model sig e,
                         compilerCalls := sys.compilerCalls + 1 }
              { s with st := SessionState.ready, shape := some sig, devs := ds, exe := some e })

/-- Modelled from the spec: `run(inputs)` — valid from `Ready` with inputs
matching the currently bound ShapeSignature exactly; mismatched shapes
fail fast with `ShapeMismatch` and never trigger an implicit recompile.
From `Detached` with the bound signature, reattachment is implicit: a
DeviceSet of the declared size is re-reserved, the retained executable is
reused without recompiling, and the session returns to `Ready`.  Inputs
are represented by their ShapeSignature; the output is opaque. -/
def runOp (sys : Sys) (sid : SessionId) (sig : ShapeSig) : Except Err (Nat × Sys) :=
  match findSession sys sid with
  | none => Except.error Err.unknownSession
  | some s =>
    if s.st = SessionState.destroyed then Except.error Err.sessionDestroyed
    else if s.st = SessionState.ready then
      if s.shape = some sig then
        match s.exe with
        | some e => Except.ok (Nat.pair e.artifact sig, sys)
        | none => Except.error Err.invalidTransition
      else Except.error Err.shapeMismatch
    else if s.st = SessionState.detached then
      if s.shape = some sig then
        match s.exe with
        | some e =>
          match reserve sys.reg s.devReq with
          | Except.error err => Except.error err
          | Except.ok (ds, reg1) =>
            Except.ok (Nat.pair e.artifact sig,
              setSession { sys with reg := attach reg1 ds s.sid }
                { s with st := SessionState.ready, devs := ds })
        | none => Except.error Err.invalidTransition
      else Except.error Err.shapeMismatch
    else Except.error Err.invalidTransition

/-- Modelled from the spec: `detach()` — valid from `Ready`; releases the
DeviceSet via the registry, retains the ExecutableEntry reference,
transitions to `Detached`; idempotent if already `Detached`; fails with
`SessionDestroyed` on a destroyed session. -/
def detachOp (sys : Sys) (sid : SessionId) : Except Err Sys :=
  match findSession sys sid with
  | none => Except.error Err.unknownSession
  | some s =>
    if s.st = SessionState.destroyed then Except.error Err.sessionDestroyed
    else if s.st = SessionState.ready then
      Except.ok (setSession { sys with reg := release sys.reg s.devs }
        { s with st := SessionState.detached, devs := [] })
    else if s.st = SessionState.detached then Except.ok sys
    else Except.error Err.invalidTransition

/-- Modelled from the spec: `destroy()` — reachable from any state;
releases any held DeviceSet back to Free and transitions to `Destroyed`,
irreversibly. -/
def destroyOp (sys : Sys) (sid : SessionId) : Except Err Sys :=
  match findSession sys sid with
  | none => Except.error Err.unknownSession
  | some s =>
    Except.ok (setSession { sys with reg := release sys.reg s.devs }
      { s with st := SessionState.destroyed, shape := none, devs := [], exe := none })

/-- The system state observed by the caller after a `compile` call: a
failed call exposes no partial-completion state, so the pre-call state is
retained unchanged. -/
def compilePost (sys : Sys) (sid : SessionId) (sig : ShapeSig) : Sys :=
  match compileOp sys sid sig with
  | Except.ok sys1 => sys1
  | Except.error _ => sys

/-- The system state observed by the caller after a `run` call; a failed
call exposes no partial-completion state. -/
def runPost (sys : Sys) (sid : SessionId) (sig : ShapeSig) : Sys :=
  match runOp sys sid sig with
  | Except.ok (_, sys1) => sys1
  | Except.error _ => sys

/-- The registry observed after a `reserve` call; a failed reservation has
no side effects on the inventory. -/
def reservePost (reg : Registry) (count : Nat) : Registry :=
  match reserve reg count with
  | Except.ok (_, reg1) => reg1
  | Except.error _ => reg

/-- Notebook variable names. -/
abbrev Var := String

/-- Modelled from the spec: the SessionLifecycleManager's view of which
notebook variables hold a reference to which session (variable names are
unique). -/
abbrev Env := List (Var × SessionId)

/-- The number of live references (variables) holding a session. -/
def refcount (env : Env) (sid : SessionId) : Nat :=
  (env.filter (fun b => decide (b.2 = sid))).length

/-- Modelled from the spec: deleting a notebook variable.  The lifecycle
manager destroys the session it referenced only when no other live
reference remains (weak-reference cleanup). -/
def delVar (sys : Sys) (env : Env) (x : Var) : Sys × Env :=
  match env.find? (fun b => decide (b.1 = x)) with
  | none => (sys, env)
  | some b =>
    let env1 := env.filter (fun c => decide (c.1 ≠ x))
    if refcount env1 b.2 = 0 then
      match destroyOp sys b.2 with
      | Except.ok sys1 => (sys1, env1)
      | Except.error _ => (sys, env1)
    else (sys, env1)

/-- Parameters of a freshly constructed session (Created, unattached,
uncompiled). -/
structure NewSessionSpec where
  sid : SessionId
  model : ModelId
  devReq : Nat
deriving DecidableEq

/-- A freshly constructed session (Created, no devices, nothing bound). -/
def freshSession (ns : NewSessionSpec) : Session :=
  ⟨ns.sid, ns.model, ns.devReq, SessionState.created, none, [], none⟩

/-- Modelled from the spec: the lifecycle manager's explicit `reassign`
operation — binding a new session to a variable that previously held
another session's only live reference first destroys the old session and
releases its devices, and only then installs the new (still unattached)
session; ordering is strictly release-before-reserve. -/
def reassign (sys : Sys) (env : Env) (x : Var) (ns : NewSessionSpec) : Sys × Env :=
  let p := delVar sys env x
  ({ p.1 with sessions := p.1.sessions ++ [freshSession ns] }, (x, ns.sid) :: p.2)

/-- Embedded from the notebooks: `os.getenv(key, default)`. -/
def getenvOr (osenv : List (String × String)) (key dflt : String) : String :=
  match osenv.find? (fun kv => decide (kv.1 = key)) with
  | some kv => kv.2
  | none => dflt

/-- Embedded from the notebooks: the shared cache root,
`os.getenv("POPLAR_EXECUTABLE_CACHE_DIR", "/tmp/exe_cache/")`. -/
def poplarCacheRoot (osenv : List (String × String)) : String :=
  getenvOr osenv "POPLAR_EXECUTABLE_CACHE_DIR" "/tmp/exe_cache/"

/-- Embedded from src/unnamed/part_000: the wav2vec2 inference notebook's
`executable_cache_dir`. -/
def wav2vec2_inference_cache_dir (osenv : List (String × String)) : String :=
  poplarCacheRoot osenv ++ "/wav2vec2_inference"

/-- Embedded from src/notebooks/wav2vec2/wav2vec2-fine-tuning-checkpoint.ipynb:
the fine-tuning notebook's `executable_cache_dir`. -/
def wav2vec2_fine_tuning_cache_dir (osenv : List (String × String)) : String :=
  poplarCacheRoot osenv ++ "/wav2vec2_fine_tuning"

/-- Embedded from src/notebooks/stable_diffusion/inpainting.ipynb: the
inpainting notebook's `executable_cache_dir`. -/
def stablediffusion_inpainting_cache_dir (osenv : List (String × String)) : String :=
  poplarCacheRoot osenv ++ "/stablediffusion_inpainting"

/-- Embedded from src/notebooks/stable_diffusion/text_to_image_sd2.ipynb:
the text-to-image notebook's `executable_cache_dir`. -/
def stablediffusion2_text2img_cache_dir (osenv : List (String × String)) : String :=
  poplarCacheRoot osenv ++ "/stablediffusion2_text2img"

/-- Embedded from src/notebooks/stable_diffusion/inpainting.ipynb (second
configuration cell): the image-to-image `executable_cache_dir`. -/
def stablediffusion_img2img_cache_dir (osenv : List (String × String)) : String :=
  poplarCacheRoot osenv ++ "/stablediffusion_img2img"

/-- Embedded from src/unnamed/part_001: the external-model notebook's
`executable_cache_dir`. -/
def external_model_cache_dir (osenv : List (String × String)) : String :=
  poplarCacheRoot osenv ++ "/external_model"

/-- Embedded from src/notebooks/wav2vec2/wav2vec2-fine-tuning-checkpoint.ipynb
(the sentiment-analysis notebook): its `executable_cache_dir` is the bare
cache root, with default `./exe_cache/` and no application suffix. -/
def sentiment_analysis_cache_dir (osenv : List (String × String)) : String :=
  getenvOr osenv "POPLAR_EXECUTABLE_CACHE_DIR" "./exe_cache/"

/-- The per-application namespacing premise: the application's cache
directory is the shared cache root plus a fixed nonempty
application-specific suffix, in every environment. -/
def namespacedUnderRoot (f : List (String × String) → String) : Prop :=
  ∃ suffix : String, suffix ≠ "" ∧ ∀ osenv, f osenv = poplarCacheRoot osenv ++ suffix

/-- Modelled from the spec: the on-disk cache shared by all applications,
keyed by cache directory and (model, ShapeSignature) key. -/
abbrev GlobalCache := List ((String × (ModelId × ShapeSig)) × ExecutableEntry)

/-- Modelled from the spec: storing an entry under an application's cache
directory. -/
def storeAt (g : GlobalCache) (dir : String) (k : ModelId × ShapeSig) (e : ExecutableEntry) : GlobalCache :=
  ((dir, k), e) :: g.filter (fun x => decide (x.1 ≠ (dir, k)))

/-- Modelled from the spec: looking an entry up under an application's
cache directory. -/
def lookupAt (g : GlobalCache) (dir : String) (k : ModelId × ShapeSig) : Option ExecutableEntry :=
  (g.find? (fun x => decide (x.1 = (dir, k)))).map (fun x => x.2)

/-- The owning session recorded in a device state, when any. -/
def ownerOf : DevState → Option SessionId
  | DevState.attached o => some o
  | _ => none

/-- Well-formedness of the shared state: device identifiers are unique,
session identifiers are unique, each session's DeviceSet is duplicate-free
and marked Attached to it in the registry, every Attached device belongs
to the DeviceSet of a `Ready` session with the recorded owner identifier,
and only `Ready` sessions hold devices. -/
abbrev WF (reg : Registry) (ss : List Session) : Prop :=
  (reg.map (fun r => r.did)).Nodup ∧
  (ss.map (fun s => s.sid)).Nodup ∧
  (∀ s ∈ ss, s.devs.Nodup) ∧
  (∀ s ∈ ss, ∀ d ∈ s.devs, regState reg d = some (DevState.attached s.sid)) ∧
  (∀ r ∈ reg, (ownerOf r.st).isSome →
    ∃ s ∈ ss, some s.sid = ownerOf r.st ∧ s.st = SessionState.ready ∧ r.did ∈ s.devs) ∧
  (∀ s ∈ ss, s.st ≠ SessionState.ready → s.devs = []) ∧
  (∀ s ∈ ss, s.st = SessionState.ready → s.exe.isSome)

/-- Well-formed system states. -/
abbrev SysWF (sys : Sys) : Prop :=
  WF sys.reg sys.sessions

/-- No two live sessions hold overlapping devices. -/
def sessionsDisjoint (ss : List Session) : Prop :=
  ∀ s1 ∈ ss, ∀ s2 ∈ ss, s1.sid ≠ s2.sid → ∀ d ∈ s1.devs, d ∉ s2.devs

/-- Every Attached device belongs to exactly one session, that session is
`Ready`, and it is the recorded owner. -/
def attachedUnique (reg : Registry) (ss : List Session) : Prop :=
  ∀ r ∈ reg, ∀ o, r.st = DevState.attached o →
    ∃ s ∈ ss, s.sid = o ∧ s.st = SessionState.ready ∧ r.did ∈ s.devs ∧
      ∀ t ∈ ss, r.did ∈ t.devs → t = s

/-- One step of the system: any session operation (these are the only
call sites of the registry mutation points `reserve`, `attach` and
`release`, per the spec's side-effect discipline). -/
inductive Step : Sys → Sys → Prop where
  | compile (sys sys1 : Sys) (sid : SessionId) (sig : ShapeSig) :
      compileOp sys sid sig = Except.ok sys1 → Step sys sys1
  | run (sys sys1 : Sys) (sid : SessionId) (sig : ShapeSig) (out : Nat) :
      runOp sys sid sig = Except.ok (out, sys1) → Step sys sys1
  | detach (sys sys1 : Sys) (sid : SessionId) :
      detachOp sys sid = Except.ok sys1 → Step sys sys1
  | destroy (sys sys1 : Sys) (sid : SessionId) :
      destroyOp sys sid = Except.ok sys1 → Step sys sys1

/-- The system state observed by the caller after a `detach` call; a
failed call exposes no partial-completion state. -/
def detachPost (sys : Sys) (sid : SessionId) : Sys :=
  match detachOp sys sid with
  | Except.ok sys1 => sys1
  | Except.error _ => sys

/-- A small concrete bootstrap inventory: four Free devices. -/
def demoReg : Registry :=
  [⟨0, DevState.free⟩, ⟨1, DevState.free⟩, ⟨2, DevState.free⟩, ⟨3, DevState.free⟩]

/-- A freshly created demo session requiring two devices. -/
def demoSession : Session :=
  ⟨1, 10, 2, SessionState.created, none, [], none⟩

/-- A second freshly created demo session requiring two devices. -/
def demoSession2 : Session :=
  ⟨2, 20, 2, SessionState.created, none, [], none⟩

/-- A demo system: four Free devices, empty cache, two Created sessions. -/
def demoSys : Sys :=
  ⟨demoReg, [], [demoSession, demoSession2], 0⟩

/-- A demo system with a single Free device, fewer than the demo
session's two-device requirement. -/
def demoSmallSys : Sys :=
  ⟨[⟨0, DevState.free⟩], [], [demoSession], 0⟩

theorem find?_map_did (reg : Registry) (g : DeviceRec → DeviceRec)
    (hg : ∀ r, (g r).did = r.did) (d : DeviceId) :
    (reg.map g).find? (fun r => decide (r.did = d)) =
      (reg.find? (fun r => decide (r.did = d))).map g := by
  induction reg with
  | nil => rfl
  | cons r rest ih =>
    by_cases h : r.did = d
    · simp [List.find?_cons, hg, h]
    · simp [List.find?_cons, hg, h, ih]

theorem regState_map (reg : Registry) (g : DeviceRec → DeviceRec)
    (hg : ∀ r, (g r).did = r.did) (d : DeviceId) :
    regState (reg.map g) d =
      (reg.find? (fun r => decide (r.did = d))).map (fun r => (g r).st) := by
  unfold regState
  rw [find?_map_did reg g hg d]
  cases reg.find? (fun r => decide (r.did = d)) <;> rfl

theorem find?_of_mem_nodup (reg : Registry) (hn : (reg.map (fun r => r.did)).Nodup)
    (r : DeviceRec) (hr : r ∈ reg) :
    reg.find? (fun x => decide (x.did = r.did)) = some r := by
  induction reg with
  | nil => cases hr
  | cons a rest ih =>
    simp only [List.map_cons, List.nodup_cons] at hn
    rcases List.mem_cons.mp hr with h | h
    · subst h; simp [List.find?_cons]
    · have hne : a.did ≠ r.did := by
        intro he
        exact hn.1 (he ▸ List.mem_map_of_mem (fun x => x.did) h)
      simp [List.find?_cons, hne, ih hn.2 h]

theorem regState_of_mem (reg : Registry) (hn : (reg.map (fun r => r.did)).Nodup)
    (r : DeviceRec) (hr : r ∈ reg) : regState reg r.did = some r.st := by
  unfold regState
  rw [find?_of_mem_nodup reg hn r hr]
  rfl

theorem regState_some_mem (reg : Registry) (d : DeviceId) (st : DevState)
    (h : regState reg d = some st) : ∃ r ∈ reg, r.did = d ∧ r.st = st := by
  unfold regState at h
  cases hf : reg.find? (fun r => decide (r.did = d)) with
  | none => rw [hf] at h; cases h
  | some r =>
    rw [hf] at h
    refine ⟨r, List.mem_of_find?_eq_some hf, ?_, ?_⟩
    · have := List.find?_some hf
      simpa using this
    · have : st = r.st := by simpa using h.symm
      exact this.symm

theorem regState_release (reg : Registry) (ds : DeviceSet) (d : DeviceId) :
    regState (release reg ds) d =
      (regState reg d).map (fun st => if d ∈ ds then DevState.free else st) := by
  unfold release
  rw [regState_map _ _ (fun r => by by_cases h : r.did ∈ ds <;> simp [h]) d]
  unfold regState
  cases hf : reg.find? (fun r => decide (r.did = d)) with
  | none => rfl
  | some r =>
    have hd : r.did = d := by simpa using List.find?_some hf
    by_cases h : d ∈ ds <;> simp [hd, h]

theorem regState_markReserved (reg : Registry) (ds : DeviceSet) (d : DeviceId) :
    regState (markReserved reg ds) d =
      (regState reg d).map
        (fun st => if d ∈ ds ∧ st = DevState.free then DevState.reserved else st) := by
  unfold markReserved
  rw [regState_map _ _ (fun r => by
    by_cases h : r.did ∈ ds ∧ r.st = DevState.free <;> simp [h]) d]
  unfold regState
  cases hf : reg.find? (fun r => decide (r.did = d)) with
  | none => rfl
  | some r =>
    have hd : r.did = d := by simpa using List.find?_some hf
    by_cases h : d ∈ ds ∧ r.st = DevState.free
    · simp [hd, h, h.1, h.2]
    · by_cases h1 : d ∈ ds
      · have h2 : ¬ r.st = DevState.free := fun hc => h ⟨h1, hc⟩
        simp [hd, h1, h2]
      · simp [hd, h1]

theorem regState_attach (reg : Registry) (ds : DeviceSet) (o : SessionId) (d : DeviceId) :
    regState (attach reg ds o) d =
      (regState reg d).map
        (fun st => if d ∈ ds ∧ st = DevState.reserved then DevState.attached o else st) := by
  unfold attach
  rw [regState_map _ _ (fun r => by
    by_cases h : r.did ∈ ds ∧ r.st = DevState.reserved <;> simp [h]) d]
  unfold regState
  cases hf : reg.find? (fun r => decide (r.did = d)) with
  | none => rfl
  | some r =>
    have hd : r.did = d := by simpa using List.find?_some hf
    by_cases h : d ∈ ds ∧ r.st = DevState.reserved
    · simp [hd, h, h.1, h.2]
    · by_cases h1 : d ∈ ds
      · have h2 : ¬ r.st = DevState.reserved := fun hc => h ⟨h1, hc⟩
        simp [hd, h1, h2]
      · simp [hd, h1]

theorem takeFree_sublist (reg : Registry) (n : Nat) :
    ((reg.filter isFree).take n).Sublist reg :=
  ((reg.filter isFree).take_sublist n).trans (reg.filter_sublist)

theorem takeFree_nodup (reg : Registry) (n : Nat)
    (hn : (reg.map (fun r => r.did)).Nodup) : (takeFree reg n).Nodup := by
  unfold takeFree
  exact hn.sublist ((takeFree_sublist reg n).map (fun r => r.did))

theorem takeFree_free (reg : Registry) (n : Nat)
    (hn : (reg.map (fun r => r.did)).Nodup) :
    ∀ d ∈ takeFree reg n, regState reg d = some DevState.free := by
  intro d hd
  unfold takeFree at hd
  rcases List.mem_map.mp hd with ⟨r, hr, hrd⟩
  have hmem : r ∈ reg.filter isFree := List.mem_of_mem_take hr
  have hfree : r.st = DevState.free := by
    have := List.of_mem_filter hmem
    unfold isFree at this
    cases hst : r.st <;> simp [hst] at this ⊢
  have hrreg : r ∈ reg := List.mem_of_mem_filter hmem
  rw [← hrd]
  rw [regState_of_mem reg hn r hrreg, hfree]

theorem takeFree_length (reg : Registry) (n : Nat) (h : n ≤ freeCount reg) :
    (takeFree reg n).length = n := by
  unfold takeFree
  rw [List.length_map, List.length_take]
  exact Nat.min_eq_left h

theorem reserve_ok_elim (reg : Registry) (n : Nat) (ds : DeviceSet) (reg1 : Registry)
    (h : reserve reg n = Except.ok (ds, reg1)) :
    ds = takeFree reg n ∧ reg1 = markReserved reg ds ∧ n ≤ freeCount reg := by
  unfold reserve at h
  by_cases hc : freeCount reg < n
  · simp [hc] at h
  · simp [hc] at h
    refine ⟨h.1.symm, ?_, Nat.le_of_not_lt hc⟩
    rw [← h.1]
    exact h.2.symm

theorem reserve_insufficient (reg : Registry) (n : Nat) (h : freeCount reg < n) :
    reserve reg n = Except.error Err.insufficientDevices := by
  unfold reserve
  simp [h]

theorem reserve_sufficient (reg : Registry) (n : Nat) (h : n ≤ freeCount reg) :
    reserve reg n = Except.ok (takeFree reg n, markReserved reg (takeFree reg n)) := by
  unfold reserve
  simp [Nat.not_lt_of_le h]

theorem regState_reserve_attach_mem (reg : Registry) (ds : DeviceSet) (o : SessionId)
    (d : DeviceId) (hd : d ∈ ds) (hf : regState reg d = some DevState.free) :
    regState (attach (markReserved reg ds) ds o) d = some (DevState.attached o) := by
  rw [regState_attach, regState_markReserved, hf]
  simp [hd]

theorem regState_reserve_attach_not_mem (reg : Registry) (ds : DeviceSet) (o : SessionId)
    (d : DeviceId) (hd : d ∉ ds) :
    regState (attach (markReserved reg ds) ds o) d = regState reg d := by
  rw [regState_attach, regState_markReserved]
  cases regState reg d with
  | none => rfl
  | some st => simp [hd]

theorem map_did_release (reg : Registry) (ds : DeviceSet) :
    (release reg ds).map (fun r => r.did) = reg.map (fun r => r.did) := by
  unfold release
  rw [List.map_map]
  apply List.map_congr_left
  intro r _
  by_cases h : r.did ∈ ds <;> simp [h]

theorem map_did_markReserved (reg : Registry) (ds : DeviceSet) :
    (markReserved reg ds).map (fun r => r.did) = reg.map (fun r => r.did) := by
  unfold markReserved
  rw [List.map_map]
  apply List.map_congr_left
  intro r _
  by_cases h : r.did ∈ ds ∧ r.st = DevState.free <;> simp [h]

theorem map_did_attach (reg : Registry) (ds : DeviceSet) (o : SessionId) :
    (attach reg ds o).map (fun r => r.did) = reg.map (fun r => r.did) := by
  unfold attach
  rw [List.map_map]
  apply List.map_congr_left
  intro r _
  by_cases h : r.did ∈ ds ∧ r.st = DevState.reserved <;> simp [h]

theorem updateSess_sids (ss : List Session) (s : Session) :
    (updateSess ss s).map (fun t => t.sid) = ss.map (fun t => t.sid) := by
  unfold updateSess
  rw [List.map_map]
  apply List.map_congr_left
  intro t _
  by_cases h : t.sid = s.sid <;> simp [h]

theorem mem_updateSess (ss : List Session) (s t : Session) (ht : t ∈ updateSess ss s) :
    (t = s ∧ ∃ u ∈ ss, u.sid = s.sid) ∨ (t ∈ ss ∧ t.sid ≠ s.sid) := by
  unfold updateSess at ht
  rcases List.mem_map.mp ht with ⟨u, hu, hut⟩
  by_cases h : u.sid = s.sid
  · left
    rw [if_pos h] at hut
    exact ⟨hut.symm, u, hu, h⟩
  · right
    rw [if_neg h] at hut
    rw [← hut]
    exact ⟨hu, h⟩

theorem mem_updateSess_self (ss : List Session) (s u : Session)
    (hu : u ∈ ss) (he : u.sid = s.sid) : s ∈ updateSess ss s := by
  unfold updateSess
  rcases List.mem_map.mp (List.mem_map_of_mem (fun t => if t.sid = s.sid then s else t) hu)
    with ⟨v, hv, hvs⟩
  have : (if u.sid = s.sid then s else u) ∈
      ss.map (fun t => if t.sid = s.sid then s else t) :=
    List.mem_map_of_mem _ hu
  rw [if_pos he] at this
  exact this

theorem mem_updateSess_other (ss : List Session) (s t : Session)
    (ht : t ∈ ss) (hne : t.sid ≠ s.sid) : t ∈ updateSess ss s := by
  unfold updateSess
  have : (if t.sid = s.sid then s else t) ∈
      ss.map (fun u => if u.sid = s.sid then s else u) :=
    List.mem_map_of_mem _ ht
  rw [if_neg hne] at this
  exact this

theorem sid_inj (ss : List Session) (hn : (ss.map (fun s => s.sid)).Nodup)
    (u v : Session) (hu : u ∈ ss) (hv : v ∈ ss) (he : u.sid = v.sid) : u = v := by
  induction ss with
  | nil => cases hu
  | cons a rest ih =>
    simp only [List.map_cons, List.nodup_cons] at hn
    rcases List.mem_cons.mp hu with h1 | h1 <;> rcases List.mem_cons.mp hv with h2 | h2
    · rw [h1, h2]
    · exfalso
      apply hn.1
      rw [h1] at he
      exact he ▸ List.mem_map_of_mem (fun s => s.sid) h2
    · exfalso
      apply hn.1
      rw [h2] at he
      exact he ▸ List.mem_map_of_mem (fun s => s.sid) h1
    · exact ih hn.2 h1 h2

theorem findSession_elim (sys : Sys) (sid : SessionId) (s : Session)
    (h : findSession sys sid = some s) : s ∈ sys.sessions ∧ s.sid = sid := by
  unfold findSession at h
  refine ⟨List.mem_of_find?_eq_some h, ?_⟩
  have := List.find?_some h
  simpa using this

theorem find?_updateSess (ss : List Session) (sid : SessionId) (s s1 : Session)
    (h : ss.find? (fun t => decide (t.sid = sid)) = some s) (hsid : s1.sid = sid) :
    (updateSess ss s1).find? (fun t => decide (t.sid = sid)) = some s1 := by
  induction ss with
  | nil => cases h
  | cons a rest ih =>
    by_cases ha : a.sid = sid
    · unfold updateSess
      simp only [List.map_cons]
      rw [if_pos (by rw [ha, hsid])]
      simp [List.find?_cons, hsid]
    · rw [List.find?_cons_of_neg _ (by simpa using ha)] at h
      unfold updateSess
      simp only [List.map_cons]
      rw [if_neg (by rw [hsid]; exact ha)]
      rw [List.find?_cons_of_neg _ (by simpa using ha)]
      exact ih h

theorem findSession_setSession (sys : Sys) (sid : SessionId) (s s1 : Session)
    (h : findSession sys sid = some s) (hsid : s1.sid = sid) :
    findSession (setSession sys s1) sid = some s1 := by
  unfold findSession setSession at *
  exact find?_updateSess sys.sessions sid s s1 h hsid

theorem wf_update_same (reg : Registry) (ss : List Session) (s s1 : Session)
    (hwf : WF reg ss) (hs : s ∈ ss) (hsid : s1.sid = s.sid) (hdevs : s1.devs = s.devs)
    (hst : s1.st = s.st) (hexe : s1.st = SessionState.ready → s1.exe.isSome) :
    WF reg (updateSess ss s1) := by
  obtain ⟨hreg, hsids, hdn, hown, hao, hrd, hre⟩ := hwf
  refine ⟨hreg, ?_, ?_, ?_, ?_, ?_, ?_⟩
  · rw [updateSess_sids]; exact hsids
  · intro t ht
    rcases mem_updateSess ss s1 t ht with ⟨rfl, _⟩ | ⟨ht1, _⟩
    · rw [hdevs]; exact hdn s hs
    · exact hdn t ht1
  · intro t ht d hd
    rcases mem_updateSess ss s1 t ht with ⟨rfl, _⟩ | ⟨ht1, _⟩
    · rw [hdevs] at hd
      rw [hsid]
      exact hown s hs d hd
    · exact hown t ht1 d hd
  · intro r hr hiso
    rcases hao r hr hiso with ⟨u, hu, huo, hur, hud⟩
    by_cases hcase : u.sid = s1.sid
    · have hus : u = s := sid_inj ss hsids u s hu hs (hcase.trans hsid)
      refine ⟨s1, mem_updateSess_self ss s1 u hu hcase, ?_, ?_, ?_⟩
      · rw [hsid, ← hus]; exact huo
      · rw [hst, ← hus]; exact hur
      · rw [hdevs, ← hus]; exact hud
    · exact ⟨u, mem_updateSess_other ss s1 u hu hcase, huo, hur, hud⟩
  · intro t ht hnr
    rcases mem_updateSess ss s1 t ht with ⟨rfl, _⟩ | ⟨ht1, _⟩
    · rw [hdevs]
      exact hrd s hs (by rw [← hst]; exact hnr)
    · exact hrd t ht1 hnr
  · intro t ht htr
    rcases mem_updateSess ss s1 t ht with ⟨rfl, _⟩ | ⟨ht1, _⟩
    · exact hexe htr
    · exact hre t ht1 htr

theorem wf_release_update (reg : Registry) (ss : List Session) (s s1 : Session)
    (hwf : WF reg ss) (hs : s ∈ ss) (hsid : s1.sid = s.sid) (hdevs : s1.devs = [])
    (hst : s1.st ≠ SessionState.ready) :
    WF (release reg s.devs) (updateSess ss s1) := by
  obtain ⟨hreg, hsids, hdn, hown, hao, hrd, hre⟩ := hwf
  refine ⟨?_, ?_, ?_, ?_, ?_, ?_, ?_⟩
  · rw [map_did_release]; exact hreg
  · rw [updateSess_sids]; exact hsids
  · intro t ht
    rcases mem_updateSess ss s1 t ht with ⟨rfl, _⟩ | ⟨ht1, _⟩
    · rw [hdevs]; exact List.nodup_nil
    · exact hdn t ht1
  · intro t ht d hd
    rcases mem_updateSess ss s1 t ht with ⟨rfl, _⟩ | ⟨ht1, hne⟩
    · rw [hdevs] at hd; cases hd
    · have hdt := hown t ht1 d hd
      have hnotin : d ∉ s.devs := by
        intro hin
        have hds := hown s hs d hin
        rw [hdt] at hds
        have : t.sid = s.sid := by simpa using hds
        exact hne (this.symm ▸ hsid.symm)
      rw [regState_release, hdt]
      simp [hnotin]
  · intro r2 hr2 hiso
    rcases List.mem_map.mp hr2 with ⟨r, hr, hrr⟩
    by_cases hd : r.did ∈ s.devs
    · rw [if_pos hd] at hrr
      rw [← hrr] at hiso
      simp [ownerOf] at hiso
    · rw [if_neg hd] at hrr
      subst hrr
      rcases hao r hr hiso with ⟨u, hu, huo, hur, hud⟩
      by_cases hcase : u.sid = s1.sid
      · exfalso
        have hus : u = s := sid_inj ss hsids u s hu hs (hcase.trans hsid)
        rw [hus] at hud
        exact hd hud
      · exact ⟨u, mem_updateSess_other ss s1 u hu hcase, huo, hur, hud⟩
  · intro t ht hnr
    rcases mem_updateSess ss s1 t ht with ⟨rfl, _⟩ | ⟨ht1, _⟩
    · exact hdevs
    · exact hrd t ht1 hnr
  · intro t ht htr
    rcases mem_updateSess ss s1 t ht with ⟨rfl, _⟩ | ⟨ht1, _⟩
    · exact absurd htr hst
    · exact hre t ht1 htr

theorem wf_reserve_attach_update (reg : Registry) (ss : List Session) (s s1 : Session)
    (n : Nat) (ds : DeviceSet) (reg1 : Registry)
    (hwf : WF reg ss) (hs : s ∈ ss) (hsdevs : s.devs = [])
    (hres : reserve reg n = Except.ok (ds, reg1))
    (hsid : s1.sid = s.sid) (hdevs : s1.devs = ds) (hst : s1.st = SessionState.ready)
    (hexe : s1.exe.isSome) :
    WF (attach reg1 ds s.sid) (updateSess ss s1) := by
  obtain ⟨hreg, hsids, hdn, hown, hao, hrd, hre⟩ := hwf
  obtain ⟨hds, hreg1, hn⟩ := reserve_ok_elim reg n ds reg1 hres
  have hfree : ∀ d ∈ ds, regState reg d = some DevState.free := by
    rw [hds]; exact takeFree_free reg n hreg
  have hdsnodup : ds.Nodup := by rw [hds]; exact takeFree_nodup reg n hreg
  have hmem2 : ∀ d ∈ ds, regState (attach reg1 ds s.sid) d = some (DevState.attached s.sid) := by
    intro d hd
    rw [hreg1]
    exact regState_reserve_attach_mem reg ds s.sid d hd (hfree d hd)
  have hnot2 : ∀ d, d ∉ ds → regState (attach reg1 ds s.sid) d = regState reg d := by
    intro d hd
    rw [hreg1]
    exact regState_reserve_attach_not_mem reg ds s.sid d hd
  have hreg2 : ((attach reg1 ds s.sid).map (fun r => r.did)).Nodup := by
    rw [map_did_attach, hreg1, map_did_markReserved]; exact hreg
  refine ⟨hreg2, ?_, ?_, ?_, ?_, ?_, ?_⟩
  · rw [updateSess_sids]; exact hsids
  · intro t ht
    rcases mem_updateSess ss s1 t ht with ⟨rfl, _⟩ | ⟨ht1, _⟩
    · rw [hdevs]; exact hdsnodup
    · exact hdn t ht1
  · intro t ht d hd
    rcases mem_updateSess ss s1 t ht with ⟨rfl, _⟩ | ⟨ht1, hne⟩
    · rw [hdevs] at hd
      rw [hsid]
      exact hmem2 d hd
    · have hdt := hown t ht1 d hd
      have hnotin : d ∉ ds := by
        intro hin
        rw [hfree d hin] at hdt
        cases hdt
      rw [hnot2 d hnotin]
      exact hdt
  · intro r2 hr2 hiso
    have hr2st : regState (attach reg1 ds s.sid) r2.did = some r2.st :=
      regState_of_mem _ hreg2 r2 hr2
    by_cases hd : r2.did ∈ ds
    · have := hmem2 r2.did hd
      rw [hr2st] at this
      have hst2 : r2.st = DevState.attached s.sid := by
        injection this
      refine ⟨s1, mem_updateSess_self ss s1 s hs hsid.symm, ?_, hst, ?_⟩
      · rw [hst2, hsid]; rfl
      · rw [hdevs]; exact hd
    · rw [hnot2 r2.did hd] at hr2st
      rcases regState_some_mem reg r2.did r2.st hr2st with ⟨r, hr, hrdid, hrst⟩
      have hiso1 : (ownerOf r.st).isSome := by rw [hrst]; exact hiso
      rcases hao r hr hiso1 with ⟨u, hu, huo, hur, hud⟩
      by_cases hcase : u.sid = s1.sid
      · exfalso
        have hus : u = s := sid_inj ss hsids u s hu hs (hcase.trans hsid)
        rw [hus, hsdevs] at hud
        cases hud
      · refine ⟨u, mem_updateSess_other ss s1 u hu hcase, ?_, hur, ?_⟩
        · rw [← hrst]; exact huo
        · rw [← hrdid]; exact hud
  · intro t ht hnr
    rcases mem_updateSess ss s1 t ht with ⟨rfl, _⟩ | ⟨ht1, _⟩
    · exact absurd hst hnr
    · exact hrd t ht1 hnr
  · intro t ht htr
    rcases mem_updateSess ss s1 t ht with ⟨rfl, _⟩ | ⟨ht1, _⟩
    · exact hexe
    · exact hre t ht1 htr

theorem wf_compileOp (sys sys1 : Sys) (sid : SessionId) (sig : ShapeSig)
    (hwf : SysWF sys) (h : compileOp sys sid sig = Except.ok sys1) : SysWF sys1 := by
  unfold compileOp at h
  split at h
  · exact Except.noConfusion h
  · rename_i s hfind
    obtain ⟨hs, hssid⟩ := findSession_elim sys sid s hfind
    split at h
    · exact Except.noConfusion h
    · split at h
      · exact Except.noConfusion h
      · rename_i hdes hvalid
        have hvalid1 : s.st = SessionState.created ∨ s.st = SessionState.detached ∨
            (s.st = SessionState.ready ∧ s.shape ≠ some sig) := not_not.mp hvalid
        split at h
        · rename_i e hlook
          split at h
          · injection h with h1
            subst h1
            exact wf_update_same sys.reg sys.sessions s _ hwf hs rfl rfl rfl (fun _ => rfl)
          · rename_i hnready
            split at h
            · exact Except.noConfusion h
            · rename_i ds reg1 hres
              injection h with h1
              subst h1
              have hsdevs : s.devs = [] := by
                obtain ⟨_, _, _, _, _, hrd, _⟩ := hwf
                exact hrd s hs hnready
              exact wf_reserve_attach_update sys.reg sys.sessions s _ s.devReq ds reg1
                hwf hs hsdevs hres rfl rfl rfl rfl
        · rename_i hlook
          split at h
          · injection h with h1
            subst h1
            exact wf_update_same sys.reg sys.sessions s _ hwf hs rfl rfl rfl (fun _ => rfl)
          · rename_i hnready
            split at h
            · exact Except.noConfusion h
            · rename_i ds reg1 hres
              injection h with h1
              subst h1
              have hsdevs : s.devs = [] := by
                obtain ⟨_, _, _, _, _, hrd, _⟩ := hwf
                exact hrd s hs hnready
              exact wf_reserve_attach_update sys.reg sys.sessions s _ s.devReq ds reg1
                hwf hs hsdevs hres rfl rfl rfl rfl

theorem wf_runOp (sys sys1 : Sys) (sid : SessionId) (sig : ShapeSig) (out : Nat)
    (hwf : SysWF sys) (h : runOp sys sid sig = Except.ok (out, sys1)) : SysWF sys1 := by
  unfold runOp at h
  split at h
  · exact Except.noConfusion h
  · rename_i s hfind
    obtain ⟨hs, hssid⟩ := findSession_elim sys sid s hfind
    split at h
    · exact Except.noConfusion h
    · rename_i hndes
      split at h
      · rename_i hready
        split at h
        · cases hexe : s.exe with
          | none => rw [hexe] at h; exact Except.noConfusion h
          | some e =>
            rw [hexe] at h
            injection h with h1
            have h2 : sys1 = sys := congrArg Prod.snd h1.symm
            rw [h2]
            exact hwf
        · exact Except.noConfusion h
      · rename_i hnready
        split at h
        · rename_i hdet
          split at h
          · cases hexe : s.exe with
            | none => rw [hexe] at h; exact Except.noConfusion h
            | some e =>
              rw [hexe] at h
              cases hres : reserve sys.reg s.devReq with
              | error err => rw [hres] at h; exact Except.noConfusion h
              | ok p =>
                obtain ⟨ds, reg1⟩ := p
                rw [hres] at h
                injection h with h1
                have h2 : sys1 = setSession { sys with reg := attach reg1 ds s.sid }
                    { s with st := SessionState.ready, devs := ds, exe := some e } :=
                  congrArg Prod.snd h1.symm
                rw [h2]
                have hsdevs : s.devs = [] := by
                  obtain ⟨_, _, _, _, _, hrd, _⟩ := hwf
                  exact hrd s hs hnready
                exact wf_reserve_attach_update sys.reg sys.sessions s _ s.devReq ds reg1
                  hwf hs hsdevs hres rfl rfl rfl rfl
          · exact Except.noConfusion h
        · exact Except.noConfusion h

theorem wf_detachOp (sys sys1 : Sys) (sid : SessionId)
    (hwf : SysWF sys) (h : detachOp sys sid = Except.ok sys1) : SysWF sys1 := by
  unfold detachOp at h
  split at h
  · exact Except.noConfusion h
  · rename_i s hfind
    obtain ⟨hs, hssid⟩ := findSession_elim sys sid s hfind
    split at h
    · exact Except.noConfusion h
    · split at h
      · injection h with h1
        subst h1
        exact wf_release_update sys.reg sys.sessions s _ hwf hs rfl rfl (by simp)
      · split at h
        · injection h with h1
          subst h1
          exact hwf
        · exact Except.noConfusion h

theorem wf_destroyOp (sys sys1 : Sys) (sid : SessionId)
    (hwf : SysWF sys) (h : destroyOp sys sid = Except.ok sys1) : SysWF sys1 := by
  unfold destroyOp at h
  split at h
  · exact Except.noConfusion h
  · rename_i s hfind
    obtain ⟨hs, hssid⟩ := findSession_elim sys sid s hfind
    injection h with h1
    subst h1
    exact wf_release_update sys.reg sys.sessions s _ hwf hs rfl rfl (by simp)

theorem wf_step (sys sys1 : Sys) (hwf : SysWF sys) (h : Step sys sys1) : SysWF sys1 := by
  cases h with
  | compile sid sig hc => exact wf_compileOp sys sys1 sid sig hwf hc
  | run sid sig out hr => exact wf_runOp sys sys1 sid sig out hwf hr
  | detach sid hd => exact wf_detachOp sys sys1 sid hwf hd
  | destroy sid hd => exact wf_destroyOp sys sys1 sid hwf hd

theorem wf_disjoint (reg : Registry) (ss : List Session) (hwf : WF reg ss) :
    sessionsDisjoint ss := by
  obtain ⟨_, hsids, _, hown, _, _, _⟩ := hwf
  intro s1 h1 s2 h2 hne d hd1 hd2
  have e1 := hown s1 h1 d hd1
  have e2 := hown s2 h2 d hd2
  rw [e1] at e2
  exact hne (by simpa using e2)

theorem wf_attachedUnique (reg : Registry) (ss : List Session) (hwf : WF reg ss) :
    attachedUnique reg ss := by
  have hwf1 := hwf
  obtain ⟨_, hsids, _, hown, hao, _, _⟩ := hwf1
  intro r hr o ho
  have hiso : (ownerOf r.st).isSome := by rw [ho]; rfl
  rcases hao r hr hiso with ⟨u, hu, huo, hur, hud⟩
  have huo1 : u.sid = o := by
    rw [ho] at huo
    simpa [ownerOf] using huo
  refine ⟨u, hu, huo1, hur, hud, ?_⟩
  intro t ht htd
  have e1 := hown t ht r.did htd
  have e2 := hown u hu r.did hud
  rw [e1] at e2
  exact sid_inj ss hsids t u ht hu (by simpa using e2)

/-- C1: for any two concurrently live CompiledSessions, the sets of
devices they hold are disjoint at every reachable state: every operation
(the session operations, which are the only call sites of the registry
mutation points `reserve`, `attach` and `release`) preserves the
invariant that each device is owned by at most one session and an
attached DeviceSet belongs to exactly one `Ready` session. -/
theorem C1_session_device_isolation (sys0 sys : Sys) (h0 : SysWF sys0)
    (hreach : Relation.ReflTransGen Step sys0 sys) :
    SysWF sys ∧ sessionsDisjoint sys.sessions ∧ attachedUnique sys.reg sys.sessions := by
  have hwf : SysWF sys := by
    induction hreach with
    | refl => exact h0
    | tail _ hstep ih => exact wf_step _ _ ih hstep
  exact ⟨hwf, wf_disjoint _ _ hwf, wf_attachedUnique _ _ hwf⟩

/-- Witness for C1 at a concrete state: the demo system after one real
`compile` step. -/
theorem C1_session_device_isolation_witness :
    SysWF (compilePost demoSys 1 7) ∧ sessionsDisjoint (compilePost demoSys 1 7).sessions ∧
      attachedUnique (compilePost demoSys 1 7).reg (compilePost demoSys 1 7).sessions :=
  C1_session_device_isolation demoSys (compilePost demoSys 1 7) (by decide)
    (Relation.ReflTransGen.single (Step.compile demoSys (compilePost demoSys 1 7) 1 7 (by rfl)))

/-- C2: from `Ready` bound to signature S1, `run` with any S2 ≠ S1 fails
with `ShapeMismatch`, exposes no state change (in particular no
recompilation: the compiler-call counter is unchanged), and `run`
succeeds exactly when the input signature equals the bound signature. -/
theorem C2_run_shape_mismatch (sys : Sys) (sid : SessionId) (s : Session)
    (sig1 sig2 : ShapeSig) (e : ExecutableEntry)
    (hfind : findSession sys sid = some s) (hready : s.st = SessionState.ready)
    (hshape : s.shape = some sig1) (hexe : s.exe = some e) (hne : sig2 ≠ sig1) :
    runOp sys sid sig2 = Except.error Err.shapeMismatch ∧
    runPost sys sid sig2 = sys ∧
    (runPost sys sid sig2).compilerCalls = sys.compilerCalls ∧
    (∀ sig : ShapeSig, (∃ out sys1, runOp sys sid sig = Except.ok (out, sys1)) ↔ sig = sig1) := by
  have hrun : ∀ sig : ShapeSig, runOp sys sid sig =
      if sig1 = sig then Except.ok (Nat.pair e.artifact sig, sys)
      else Except.error Err.shapeMismatch := by
    intro sig
    unfold runOp
    rw [hfind]
    have h1 : ¬ s.st = SessionState.destroyed := by rw [hready]; simp
    by_cases hcs : sig1 = sig
    · simp [h1, hready, hshape, hexe, hcs]
    · simp [h1, hready, hshape, hexe, hcs]
  have hmm : runOp sys sid sig2 = Except.error Err.shapeMismatch := by
    rw [hrun sig2, if_neg (fun hc => hne hc.symm)]
  refine ⟨hmm, ?_, ?_, ?_⟩
  · unfold runPost; rw [hmm]
  · unfold runPost; rw [hmm]
  · intro sig
    constructor
    · rintro ⟨out, sys1, hok⟩
      by_cases hcs : sig1 = sig
      · exact hcs.symm
      · rw [hrun sig, if_neg hcs] at hok
        exact Except.noConfusion hok
    · intro hs
      subst hs
      exact ⟨Nat.pair e.artifact sig, sys, by rw [hrun sig, if_pos rfl]⟩

/-- Witness for C2 on the demo system after compiling signature 7:
running signature 9 fails with `ShapeMismatch`. -/
theorem C2_run_shape_mismatch_witness :
    runOp (compilePost demoSys 1 7) 1 9 = Except.error Err.shapeMismatch ∧
    runPost (compilePost demoSys 1 7) 1 9 = compilePost demoSys 1 7 ∧
    (runPost (compilePost demoSys 1 7) 1 9).compilerCalls = (compilePost demoSys 1 7).compilerCalls ∧
    (∀ sig : ShapeSig,
      (∃ out sys1, runOp (compilePost demoSys 1 7) 1 sig = Except.ok (out, sys1)) ↔ sig = 7) :=
  C2_run_shape_mismatch (compilePost demoSys 1 7) 1
    ⟨1, 10, 2, SessionState.ready, some 7, [0, 1], some ⟨Nat.pair 10 7, 2⟩⟩ 7 9
    ⟨Nat.pair 10 7, 2⟩ (by decide) (by decide) (by decide) (by decide) (by decide)

/-- C3: when fewer than `count` devices are Free, `reserve(count)` fails
with `InsufficientDevices` and the inventory is identical before and
after the call; when at least `count` devices are Free, it returns a
DeviceSet of exactly `count` devices, all previously Free and now marked
Reserved, with every other device untouched. -/
theorem C3_reserve_atomicity (reg : Registry) (count : Nat)
    (hn : (reg.map (fun r => r.did)).Nodup) :
    (freeCount reg < count →
      reserve reg count = Except.error Err.insufficientDevices ∧
      reservePost reg count = reg ∧
      inventory_snapshot (reservePost reg count) = inventory_snapshot reg) ∧
    (count ≤ freeCount reg →
      ∃ ds reg1, reserve reg count = Except.ok (ds, reg1) ∧ ds.length = count ∧
        ds.Nodup ∧ (∀ d ∈ ds, regState reg d = some DevState.free) ∧
        (∀ d ∈ ds, regState reg1 d = some DevState.reserved) ∧
        (∀ d, d ∉ ds → regState reg1 d = regState reg d)) := by
  constructor
  · intro h
    have he := reserve_insufficient reg count h
    refine ⟨he, ?_, ?_⟩
    · unfold reservePost; rw [he]
    · unfold reservePost; rw [he]
  · intro h
    refine ⟨takeFree reg count, markReserved reg (takeFree reg count),
      reserve_sufficient reg count h, takeFree_length reg count h,
      takeFree_nodup reg count hn, takeFree_free reg count hn, ?_, ?_⟩
    · intro d hd
      rw [regState_markReserved, takeFree_free reg count hn d hd]
      simp [hd]
    · intro d hd
      rw [regState_markReserved]
      cases regState reg d with
      | none => rfl
      | some st => simp [hd]

/-- Witness for C3 on the demo inventory of four Free devices. -/
theorem C3_reserve_atomicity_witness :
    (freeCount demoReg < 5 →
      reserve demoReg 5 = Except.error Err.insufficientDevices ∧
      reservePost demoReg 5 = demoReg ∧
      inventory_snapshot (reservePost demoReg 5) = inventory_snapshot demoReg) ∧
    (5 ≤ freeCount demoReg →
      ∃ ds reg1, reserve demoReg 5 = Except.ok (ds, reg1) ∧ ds.length = 5 ∧
        ds.Nodup ∧ (∀ d ∈ ds, regState demoReg d = some DevState.free) ∧
        (∀ d ∈ ds, regState reg1 d = some DevState.reserved) ∧
        (∀ d, d ∉ ds → regState reg1 d = regState demoReg d)) :=
  C3_reserve_atomicity demoReg 5 (by decide)

theorem lookup_store (c : Cache) (m : ModelId) (g : ShapeSig) (e : ExecutableEntry) :
    lookup (store c m g e) m g = some e := by
  simp [lookup, store, List.find?_cons]

theorem compileOp_ok_after (sys sys1 : Sys) (sid : SessionId) (sig : ShapeSig)
    (h : compileOp sys sid sig = Except.ok sys1) :
    ∃ s s1, findSession sys sid = some s ∧ findSession sys1 sid = some s1 ∧
      s1.model = s.model ∧ s1.st = SessionState.ready ∧ s1.shape = some sig ∧
      s1.devReq = s.devReq ∧
      ∃ e, s1.exe = some e ∧ lookup sys1.cache s.model sig = some e := by
  unfold compileOp at h
  split at h
  · exact Except.noConfusion h
  · rename_i s hfind
    obtain ⟨hs, hssid⟩ := findSession_elim sys sid s hfind
    split at h
    · exact Except.noConfusion h
    · split at h
      · exact Except.noConfusion h
      · split at h
        · rename_i e hlook
          split at h
          · rename_i hready
            injection h with h1
            subst h1
            refine ⟨s, _, hfind, findSession_setSession sys sid s _ hfind hssid,
              rfl, hready, rfl, rfl, e, rfl, hlook⟩
          · split at h
            · exact Except.noConfusion h
            · rename_i ds reg1 hres
              injection h with h1
              subst h1
              exact ⟨s, _, hfind, findSession_setSession _ sid s _ hfind hssid,
                rfl, rfl, rfl, rfl, e, rfl, hlook⟩
        · rename_i hlook
          split at h
          · injection h with h1
            subst h1
            rename_i hready
            exact ⟨s, _, hfind, findSession_setSession _ sid s _ hfind hssid,
              rfl, hready, rfl, rfl, _, rfl, lookup_store sys.cache s.model sig _⟩
          · split at h
            · exact Except.noConfusion h
            · rename_i ds reg1 hres
              injection h with h1
              subst h1
              exact ⟨s, _, hfind, findSession_setSession _ sid s _ hfind hssid,
                rfl, rfl, rfl, rfl, _, rfl, lookup_store sys.cache s.model sig _⟩

theorem detachOp_ok_after (sys sys2 : Sys) (sid : SessionId) (s : Session)
    (hfind : findSession sys sid = some s) (hready : s.st = SessionState.ready)
    (h : detachOp sys sid = Except.ok sys2) :
    sys2.cache = sys.cache ∧ sys2.compilerCalls = sys.compilerCalls ∧
    findSession sys2 sid = some { s with st := SessionState.detached, devs := [] } := by
  unfold detachOp at h
  rw [hfind] at h
  have h1 : ¬ s.st = SessionState.destroyed := by rw [hready]; simp
  simp only [h1, if_false, hready, if_true] at h
  simp at h
  subst h
  obtain ⟨hs, hssid⟩ := findSession_elim sys sid s hfind
  exact ⟨rfl, rfl, findSession_setSession _ sid s _ hfind hssid⟩

theorem compileOp_hit_calls (sys sys3 : Sys) (sid : SessionId) (sig : ShapeSig)
    (s : Session) (e : ExecutableEntry)
    (hfind : findSession sys sid = some s) (hlook : lookup sys.cache s.model sig = some e)
    (h : compileOp sys sid sig = Except.ok sys3) :
    sys3.compilerCalls = sys.compilerCalls := by
  unfold compileOp at h
  split at h
  · exact Except.noConfusion h
  · rename_i s' hfind'
    rw [hfind'] at hfind
    injection hfind with hss
    subst hss
    split at h
    · exact Except.noConfusion h
    · split at h
      · exact Except.noConfusion h
      · split at h
        · rename_i e' hlook'
          split at h
          · injection h with h1
            subst h1
            rfl
          · split at h
            · exact Except.noConfusion h
            · injection h with h1
              subst h1
              rfl
        · rename_i hlook'
          rw [hlook'] at hlook
          exact Option.noConfusion hlook

/-- C4: after `store(model_id, shape_sig, artifact)`,
`lookup(model_id, shape_sig)` returns that entry; and compiling the same
(model, ShapeSignature) pair a second time with no intervening `evict`
(here: compile, detach, compile again) is a cache hit — the external
compiler is not invoked again, observed by the unchanged call counter. -/
theorem C4_cache_hit (sys sys1 sys2 sys3 : Sys) (sid : SessionId) (sig : ShapeSig)
    (h1 : compileOp sys sid sig = Except.ok sys1)
    (h2 : detachOp sys1 sid = Except.ok sys2)
    (h3 : compileOp sys2 sid sig = Except.ok sys3) :
    sys3.compilerCalls = sys1.compilerCalls ∧
    (∀ (c : Cache) (m : ModelId) (g : ShapeSig) (e : ExecutableEntry),
      lookup (store c m g e) m g = some e) := by
  obtain ⟨s, s1, hfind, hfind1, hmodel, hready1, hshape1, hreq1, e, hexe1, hlook1⟩ :=
    compileOp_ok_after sys sys1 sid sig h1
  obtain ⟨hcache2, hcalls2, hfind2⟩ := detachOp_ok_after sys1 sys2 sid s1 hfind1 hready1 h2
  have hlook2 : lookup sys2.cache
      ({ s1 with st := SessionState.detached, devs := ([] : DeviceSet) } : Session).model sig
        = some e := by
    rw [hcache2]
    show lookup sys1.cache s1.model sig = some e
    rw [hmodel]
    exact hlook1
  have hc3 : sys3.compilerCalls = sys2.compilerCalls :=
    compileOp_hit_calls sys2 sys3 sid sig _ e hfind2 hlook2 h3
  exact ⟨hc3.trans hcalls2, fun c m g e2 => lookup_store c m g e2⟩

/-- Witness for C4: compile, detach, compile again on the demo system;
the compiler-call counter does not move on the second compile. -/
theorem C4_cache_hit_witness :
    (compilePost (detachPost (compilePost demoSys 1 7) 1) 1 7).compilerCalls =
      (compilePost demoSys 1 7).compilerCalls ∧
    (∀ (c : Cache) (m : ModelId) (g : ShapeSig) (e : ExecutableEntry),
      lookup (store c m g e) m g = some e) :=
  C4_cache_hit demoSys (compilePost demoSys 1 7) (detachPost (compilePost demoSys 1 7) 1)
    (compilePost (detachPost (compilePost demoSys 1 7) 1) 1 7) 1 7
    (by rfl) (by rfl) (by rfl)

theorem runOp_detached (sys : Sys) (sid : SessionId) (s : Session) (sig : ShapeSig)
    (e : ExecutableEntry)
    (hfind : findSession sys sid = some s) (hdet : s.st = SessionState.detached)
    (hshape : s.shape = some sig) (hexe : s.exe = some e)
    (hfree : s.devReq ≤ freeCount sys.reg) :
    runOp sys sid sig = Except.ok (Nat.pair e.artifact sig,
      setSession
        { sys with reg := (attach (markReserved sys.reg (takeFree sys.reg s.devReq))
            (takeFree sys.reg s.devReq) s.sid) }
        { s with st := SessionState.ready, devs := takeFree sys.reg s.devReq }) := by
  have h1 : ¬ s.st = SessionState.destroyed := by rw [hdet]; simp
  have h2 : ¬ s.st = SessionState.ready := by rw [hdet]; simp
  unfold runOp
  rw [hfind]
  simp [h1, h2, hdet, hshape, hexe, reserve_sufficient sys.reg s.devReq hfree]

theorem compileOp_detached_hit (sys : Sys) (sid : SessionId) (s : Session) (sig : ShapeSig)
    (e : ExecutableEntry)
    (hfind : findSession sys sid = some s) (hdet : s.st = SessionState.detached)
    (hlook : lookup sys.cache s.model sig = some e)
    (hfree : s.devReq ≤ freeCount sys.reg) :
    compileOp sys sid sig = Except.ok (setSession
      { sys with reg := (attach (markReserved sys.reg (takeFree sys.reg s.devReq))
          (takeFree sys.reg s.devReq) s.sid) }
      { s with st := SessionState.ready, shape := some sig,
               devs := takeFree sys.reg s.devReq, exe := some e }) := by
  have h1 : ¬ s.st = SessionState.destroyed := by rw [hdet]; simp
  have h2 : ¬ s.st = SessionState.ready := by rw [hdet]; simp
  unfold compileOp
  rw [hfind]
  simp [h1, h2, hdet, hlook, reserve_sufficient sys.reg s.devReq hfree]

/-- C5: `detach()` from `Ready` releases the DeviceSet, retains the
ExecutableEntry reference, moves the session to `Detached`, and is a
no-op when already `Detached`; a subsequent `run` with the unchanged
bound ShapeSignature re-reserves a DeviceSet of the same size, reuses the
retained executable without invoking the compiler again, and restores
`Ready`. -/
theorem C5_detach_reattach (sys : Sys) (sid : SessionId) (s : Session) (sig : ShapeSig)
    (e : ExecutableEntry)
    (hfind : findSession sys sid = some s) (hready : s.st = SessionState.ready)
    (hshape : s.shape = some sig) (hexe : s.exe = some e)
    (hlookc : lookup sys.cache s.model sig = some e)
    (hlen : s.devs.length = s.devReq)
    (hfree : s.devReq ≤ freeCount (release sys.reg s.devs)) :
    ∃ sys1, detachOp sys sid = Except.ok sys1 ∧
      findSession sys1 sid = some { s with st := SessionState.detached, devs := [] } ∧
      ({ s with st := SessionState.detached, devs := ([] : DeviceSet) } : Session).exe = some e ∧
      (∀ d ∈ s.devs, regState sys1.reg d = (regState sys.reg d).map (fun _ => DevState.free)) ∧
      detachOp sys1 sid = Except.ok sys1 ∧
      sys1.cache = sys.cache ∧
      (∃ out sys2, runOp sys1 sid sig = Except.ok (out, sys2) ∧
        sys2.compilerCalls = sys.compilerCalls ∧
        ∃ s2, findSession sys2 sid = some s2 ∧ s2.st = SessionState.ready ∧
          s2.exe = some e ∧ s2.devs.length = s.devs.length) ∧
      (∃ sys3, compileOp sys1 sid sig = Except.ok sys3 ∧
        sys3.compilerCalls = sys.compilerCalls ∧
        ∃ s3, findSession sys3 sid = some s3 ∧ s3.st = SessionState.ready ∧
          s3.exe = some e ∧ s3.devs.length = s.devs.length) := by
  obtain ⟨hs, hssid⟩ := findSession_elim sys sid s hfind
  have h1 : ¬ s.st = SessionState.destroyed := by rw [hready]; simp
  have hdet : detachOp sys sid = Except.ok
      (setSession { sys with reg := release sys.reg s.devs }
        { s with st := SessionState.detached, devs := [] }) := by
    unfold detachOp
    rw [hfind]
    simp [h1, hready]
  have hfind1 := findSession_setSession
    { sys with reg := release sys.reg s.devs } sid s
    { s with st := SessionState.detached, devs := [] } hfind hssid
  have hrun := runOp_detached
    (setSession { sys with reg := release sys.reg s.devs }
      { s with st := SessionState.detached, devs := [] }) sid
    { s with st := SessionState.detached, devs := [] } sig e hfind1 rfl hshape hexe hfree
  have hcomp := compileOp_detached_hit
    (setSession { sys with reg := release sys.reg s.devs }
      { s with st := SessionState.detached, devs := [] }) sid
    { s with st := SessionState.detached, devs := [] } sig e hfind1 rfl hlookc hfree
  refine ⟨_, hdet, hfind1, hexe, ?_, ?_, rfl, ?_, ?_⟩
  · intro d hd
    show regState (release sys.reg s.devs) d = _
    rw [regState_release]
    cases regState sys.reg d with
    | none => rfl
    | some st => simp [hd]
  · unfold detachOp
    rw [hfind1]
    simp
  · refine ⟨_, _, hrun, rfl,
      { s with st := SessionState.ready,
               devs := takeFree (release sys.reg s.devs) s.devReq }, ?_, rfl, hexe, ?_⟩
    · exact findSession_setSession _ sid _ _ hfind1 hssid
    · show (takeFree (release sys.reg s.devs) s.devReq).length = s.devs.length
      rw [takeFree_length _ _ hfree, hlen]
  · refine ⟨_, hcomp, rfl,
      { s with st := SessionState.ready, shape := some sig,
               devs := takeFree (release sys.reg s.devs) s.devReq, exe := some e }, ?_, rfl,
      rfl, ?_⟩
    · exact findSession_setSession _ sid _ _ hfind1 hssid
    · show (takeFree (release sys.reg s.devs) s.devReq).length = s.devs.length
      rw [takeFree_length _ _ hfree, hlen]

/-- Witness for C5 on the demo system after compiling signature 7:
detach, then run again with signature 7. -/
theorem C5_detach_reattach_witness :
    ∃ sys1, detachOp (compilePost demoSys 1 7) 1 = Except.ok sys1 ∧
      findSession sys1 1 =
        some ⟨1, 10, 2, SessionState.detached, some 7, [], some ⟨Nat.pair 10 7, 2⟩⟩ ∧
      (⟨1, 10, 2, SessionState.detached, some 7, [], some ⟨Nat.pair 10 7, 2⟩⟩ : Session).exe =
        some ⟨Nat.pair 10 7, 2⟩ ∧
      (∀ d ∈ ([0, 1] : DeviceSet),
        regState sys1.reg d =
          (regState (compilePost demoSys 1 7).reg d).map (fun _ => DevState.free)) ∧
      detachOp sys1 1 = Except.ok sys1 ∧
      sys1.cache = (compilePost demoSys 1 7).cache ∧
      (∃ out sys2, runOp sys1 1 7 = Except.ok (out, sys2) ∧
        sys2.compilerCalls = (compilePost demoSys 1 7).compilerCalls ∧
        ∃ s2, findSession sys2 1 = some s2 ∧ s2.st = SessionState.ready ∧
          s2.exe = some ⟨Nat.pair 10 7, 2⟩ ∧ s2.devs.length = ([0, 1] : DeviceSet).length) ∧
      (∃ sys3, compileOp sys1 1 7 = Except.ok sys3 ∧
        sys3.compilerCalls = (compilePost demoSys 1 7).compilerCalls ∧
        ∃ s3, findSession sys3 1 = some s3 ∧ s3.st = SessionState.ready ∧
          s3.exe = some ⟨Nat.pair 10 7, 2⟩ ∧ s3.devs.length = ([0, 1] : DeviceSet).length) :=
  C5_detach_reattach (compilePost demoSys 1 7) 1
    ⟨1, 10, 2, SessionState.ready, some 7, [0, 1], some ⟨Nat.pair 10 7, 2⟩⟩ 7
    ⟨Nat.pair 10 7, 2⟩ (by decide) (by decide) (by decide) (by decide) (by decide) (by decide)
    (by decide)

/-- C6: `destroy()` succeeds from every session state, releases any held
DeviceSet back to Free (observable via `inventory_snapshot`), and moves
the session to `Destroyed`; afterwards `compile`, `run` and `detach` on
that session all fail with `SessionDestroyed`. -/
theorem C6_destroy (sys : Sys) (sid : SessionId) (s : Session)
    (hfind : findSession sys sid = some s) :
    ∃ sys1, destroyOp sys sid = Except.ok sys1 ∧
      findSession sys1 sid = some { s with st := SessionState.destroyed,
                                           shape := none, devs := [], exe := none } ∧
      (∀ d ∈ s.devs, regState sys1.reg d = (regState sys.reg d).map (fun _ => DevState.free)) ∧
      (∀ d ∈ s.devs, ∀ st, (d, st) ∈ inventory_snapshot sys1.reg → st = DevState.free) ∧
      (∀ sig, compileOp sys1 sid sig = Except.error Err.sessionDestroyed) ∧
      (∀ sig, runOp sys1 sid sig = Except.error Err.sessionDestroyed) ∧
      detachOp sys1 sid = Except.error Err.sessionDestroyed := by
  obtain ⟨hs, hssid⟩ := findSession_elim sys sid s hfind
  have hdes : destroyOp sys sid = Except.ok
      (setSession { sys with reg := release sys.reg s.devs }
        { s with st := SessionState.destroyed, shape := none, devs := [], exe := none }) := by
    unfold destroyOp
    rw [hfind]
  have hfind1 := findSession_setSession
    { sys with reg := release sys.reg s.devs } sid s
    { s with st := SessionState.destroyed, shape := none, devs := [], exe := none } hfind hssid
  refine ⟨_, hdes, hfind1, ?_, ?_, ?_, ?_, ?_⟩
  · intro d hd
    show regState (release sys.reg s.devs) d = _
    rw [regState_release]
    cases regState sys.reg d with
    | none => rfl
    | some st => simp [hd]
  · intro d hd st hmem
    unfold inventory_snapshot at hmem
    rcases List.mem_map.mp hmem with ⟨r2, hr2, heq⟩
    have hdid : r2.did = d := congrArg Prod.fst heq
    have hst : r2.st = st := congrArg Prod.snd heq
    rcases List.mem_map.mp hr2 with ⟨r, _, hgr⟩
    by_cases hc : r.did ∈ s.devs
    · rw [if_pos hc] at hgr
      rw [← hst, ← hgr]
    · rw [if_neg hc] at hgr
      rw [← hgr] at hdid
      exact absurd (hdid ▸ hd) hc
  · intro sig
    unfold compileOp
    rw [hfind1]
    simp
  · intro sig
    unfold runOp
    rw [hfind1]
    simp
  · unfold detachOp
    rw [hfind1]
    simp

/-- Witness for C6: destroying the demo session that holds devices 0 and
1 after compiling signature 7. -/
theorem C6_destroy_witness :
    ∃ sys1, destroyOp (compilePost demoSys 1 7) 1 = Except.ok sys1 ∧
      findSession sys1 1 =
        some ⟨1, 10, 2, SessionState.destroyed, none, [], none⟩ ∧
      (∀ d ∈ ([0, 1] : DeviceSet),
        regState sys1.reg d =
          (regState (compilePost demoSys 1 7).reg d).map (fun _ => DevState.free)) ∧
      (∀ d ∈ ([0, 1] : DeviceSet), ∀ st,
        (d, st) ∈ inventory_snapshot sys1.reg → st = DevState.free) ∧
      (∀ sig, compileOp sys1 1 sig = Except.error Err.sessionDestroyed) ∧
      (∀ sig, runOp sys1 1 sig = Except.error Err.sessionDestroyed) ∧
      detachOp sys1 1 = Except.error Err.sessionDestroyed :=
  C6_destroy (compilePost demoSys 1 7) 1
    ⟨1, 10, 2, SessionState.ready, some 7, [0, 1], some ⟨Nat.pair 10 7, 2⟩⟩ (by decide)

/-- C8: `compile` is atomic with respect to failure: when device
reservation fails, `InsufficientDevices` is surfaced and the caller
observes exactly the pre-call state; and every `compile` or `run` call
either fully succeeds or leaves the observed state equal to the pre-call
state. -/
theorem C8_compile_atomic (sys : Sys) (sid : SessionId) (s : Session) (sig : ShapeSig)
    (hfind : findSession sys sid = some s)
    (hst : s.st = SessionState.created ∨ s.st = SessionState.detached)
    (hins : freeCount sys.reg < s.devReq) :
    compileOp sys sid sig = Except.error Err.insufficientDevices ∧
    compilePost sys sid sig = sys ∧
    (∀ sig2, (∃ sys1, compileOp sys sid sig2 = Except.ok sys1) ∨ compilePost sys sid sig2 = sys) ∧
    (∀ sig2, (∃ out sys1, runOp sys sid sig2 = Except.ok (out, sys1)) ∨ runPost sys sid sig2 = sys) := by
  have hnd : ¬ s.st = SessionState.destroyed := by
    rcases hst with h | h <;> rw [h] <;> simp
  have hnr : ¬ s.st = SessionState.ready := by
    rcases hst with h | h <;> rw [h] <;> simp
  have hvalid : s.st = SessionState.created ∨ s.st = SessionState.detached ∨
      (s.st = SessionState.ready ∧ s.shape ≠ some sig) := by
    rcases hst with h | h
    · exact Or.inl h
    · exact Or.inr (Or.inl h)
  have hres := reserve_insufficient sys.reg s.devReq hins
  have h1 : compileOp sys sid sig = Except.error Err.insufficientDevices := by
    unfold compileOp
    rw [hfind]
    rcases hst with h | h <;>
      cases hlook : lookup sys.cache s.model sig <;>
        simp [h, hres, hlook]
  refine ⟨h1, ?_, ?_, ?_⟩
  · unfold compilePost
    rw [h1]
  · intro sig2
    cases hc : compileOp sys sid sig2 with
    | ok sys1 => exact Or.inl ⟨sys1, rfl⟩
    | error err =>
      right
      unfold compilePost
      rw [hc]
  · intro sig2
    cases hc : runOp sys sid sig2 with
    | ok p =>
      obtain ⟨out, sys1⟩ := p
      exact Or.inl ⟨out, sys1, rfl⟩
    | error err =>
      right
      unfold runPost
      rw [hc]

/-- Witness for C8: compiling the demo session on a one-device inventory
(requirement is two devices) fails atomically. -/
theorem C8_compile_atomic_witness :
    compileOp demoSmallSys 1 7 = Except.error Err.insufficientDevices ∧
    compilePost demoSmallSys 1 7 = demoSmallSys ∧
    (∀ sig2, (∃ sys1, compileOp demoSmallSys 1 sig2 = Except.ok sys1) ∨
      compilePost demoSmallSys 1 sig2 = demoSmallSys) ∧
    (∀ sig2, (∃ out sys1, runOp demoSmallSys 1 sig2 = Except.ok (out, sys1)) ∨
      runPost demoSmallSys 1 sig2 = demoSmallSys) :=
  C8_compile_atomic demoSmallSys 1 demoSession 7 (by decide) (Or.inl (by decide)) (by decide)

theorem find?_key (env : Env) (hk : (env.map (fun b => b.1)).Nodup)
    (x : Var) (v : SessionId) (h : (x, v) ∈ env) :
    env.find? (fun b => decide (b.1 = x)) = some (x, v) := by
  induction env with
  | nil => cases h
  | cons a rest ih =>
    simp only [List.map_cons, List.nodup_cons] at hk
    rcases List.mem_cons.mp h with h1 | h1
    · subst h1; simp [List.find?_cons]
    · have hne : a.1 ≠ x := by
        intro he
        apply hk.1
        have : (x, v).1 ∈ rest.map (fun b => b.1) :=
          List.mem_map_of_mem (fun b => b.1) h1
        rw [he]
        exact this
      simp [List.find?_cons, hne, ih hk.2 h1]

theorem refcount_erase (env : Env) (hk : (env.map (fun b => b.1)).Nodup)
    (x : Var) (v : SessionId) (h : (x, v) ∈ env) :
    refcount (env.filter (fun c => decide (c.1 ≠ x))) v + 1 = refcount env v := by
  induction env with
  | nil => cases h
  | cons a rest ih =>
    simp only [List.map_cons, List.nodup_cons] at hk
    rcases List.mem_cons.mp h with h1 | h1
    · subst h1
      have hall : rest.filter (fun c => decide (c.1 ≠ x)) = rest := by
        apply List.filter_eq_self.mpr
        intro c hc
        simp only [decide_eq_true_eq]
        intro he
        exact hk.1 (he ▸ List.mem_map_of_mem (fun b => b.1) hc)
      have hkf : ((x, v) :: rest).filter (fun c => decide (c.1 ≠ x)) = rest := by
        rw [List.filter_cons]
        simp [hall]
        intro a b hab he
        exact hk.1 (he ▸ List.mem_map_of_mem (fun b => b.1) hab)
      unfold refcount
      rw [hkf, List.filter_cons]
      simp
    · have hne : a.1 ≠ x := by
        intro he
        apply hk.1
        have h2 : (x, v).1 ∈ rest.map (fun b => b.1) :=
          List.mem_map_of_mem (fun b => b.1) h1
        rw [he]
        exact h2
      have hih := ih hk.2 h1
      unfold refcount at hih ⊢
      by_cases hv : a.2 = v <;>
        simp [List.filter_cons, List.filter_filter, hne, hv] at hih ⊢ <;>
        omega

theorem find?_append_left {α : Type} {p : α → Bool} {l1 l2 : List α} {a : α}
    (h : l1.find? p = some a) : (l1 ++ l2).find? p = some a := by
  induction l1 with
  | nil => cases h
  | cons b rest ih =>
    cases hb : p b with
    | true =>
      rw [List.find?_cons_of_pos _ hb] at h
      rw [List.cons_append, List.find?_cons_of_pos _ hb]
      exact h
    | false =>
      rw [List.find?_cons_of_neg _ (by simp [hb])] at h
      rw [List.cons_append, List.find?_cons_of_neg _ (by simp [hb])]
      exact ih h

theorem find?_append_right {α : Type} {p : α → Bool} {l1 l2 : List α}
    (h : l1.find? p = none) : (l1 ++ l2).find? p = l2.find? p := by
  induction l1 with
  | nil => rfl
  | cons b rest ih =>
    cases hb : p b with
    | true => rw [List.find?_cons_of_pos _ hb] at h; cases h
    | false =>
      rw [List.find?_cons_of_neg _ (by simp [hb])] at h
      rw [List.cons_append, List.find?_cons_of_neg _ (by simp [hb])]
      exact ih h

theorem snapshot_release_free (reg : Registry) (ds : DeviceSet) :
    ∀ d ∈ ds, ∀ st, (d, st) ∈ inventory_snapshot (release reg ds) → st = DevState.free := by
  intro d hd st hmem
  unfold inventory_snapshot at hmem
  rcases List.mem_map.mp hmem with ⟨r2, hr2, heq⟩
  have hdid : r2.did = d := congrArg Prod.fst heq
  have hst : r2.st = st := congrArg Prod.snd heq
  rcases List.mem_map.mp hr2 with ⟨r, _, hgr⟩
  by_cases hc : r.did ∈ ds
  · rw [if_pos hc] at hgr
    rw [← hst, ← hgr]
  · rw [if_neg hc] at hgr
    rw [← hgr] at hdid
    exact absurd (hdid ▸ hd) hc

theorem freeCount_release_ge (reg : Registry) (ds : DeviceSet) :
    freeCount reg ≤ freeCount (release reg ds) := by
  induction reg with
  | nil => exact Nat.le_refl _
  | cons r rest ih =>
    unfold freeCount release at *
    simp only [List.map_cons, List.filter_cons]
    by_cases h : r.did ∈ ds
    · rw [if_pos h]
      cases hf : isFree r <;> simp [hf, isFree] <;> omega
    · rw [if_neg h]
      cases hf : isFree r <;> simp [hf] <;> omega

/-- C9: the lifecycle manager destroys a session only when no live
reference remains: with two variables aliasing one session, deleting or
reassigning one of them leaves the session (and its attached devices)
untouched; deleting the second — the last alias — destroys it and
releases its devices. -/
theorem C9_alias_refcount (sys : Sys) (env : Env) (x y : Var) (sid : SessionId) (s : Session)
    (hkeys : (env.map (fun b => b.1)).Nodup)
    (hx : (x, sid) ∈ env) (hy : (y, sid) ∈ env) (hxy : x ≠ y)
    (hrc : refcount env sid = 2)
    (hfind : findSession sys sid = some s) :
    ∃ env1, delVar sys env x = (sys, env1) ∧
      findSession sys sid = some s ∧
      refcount env1 sid = 1 ∧
      (∃ sys2 env2, delVar sys env1 y = (sys2, env2) ∧
        refcount env2 sid = 0 ∧
        findSession sys2 sid = some { s with st := SessionState.destroyed,
                                             shape := none, devs := [], exe := none } ∧
        (∀ d ∈ s.devs, ∀ st, (d, st) ∈ inventory_snapshot sys2.reg → st = DevState.free)) ∧
      (∀ ns : NewSessionSpec, ∃ sysR envR, reassign sys env x ns = (sysR, envR) ∧
        sysR.reg = sys.reg ∧
        findSession sysR sid = some s ∧
        (ns.sid ≠ sid → refcount envR sid = 1)) := by
  obtain ⟨hs, hssid⟩ := findSession_elim sys sid s hfind
  have hfx := find?_key env hkeys x sid hx
  have hrc1 : refcount (env.filter (fun c => decide (c.1 ≠ x))) sid + 1 = 2 := by
    rw [refcount_erase env hkeys x sid hx]; exact hrc
  have hrc1A : refcount (env.filter (fun c => decide (c.1 ≠ x))) sid = 1 := by omega
  have hrc1B : refcount (env.filter (fun c => !decide (c.1 = x))) sid = 1 := by
    have hcopy := hrc1A
    simp only [decide_not] at hcopy
    exact hcopy
  have hstep1 : delVar sys env x = (sys, env.filter (fun c => decide (c.1 ≠ x))) := by
    unfold delVar
    rw [hfx]
    simp [hrc1B]
  have hkeys1 : ((env.filter (fun c => decide (c.1 ≠ x))).map (fun b => b.1)).Nodup :=
    hkeys.sublist (List.Sublist.map _ (List.filter_sublist env))
  have hy1 : (y, sid) ∈ env.filter (fun c => decide (c.1 ≠ x)) := by
    apply List.mem_filter.mpr
    refine ⟨hy, ?_⟩
    simp [Ne.symm hxy]
  have hfy := find?_key _ hkeys1 y sid hy1
  have hrc2 : refcount ((env.filter (fun c => decide (c.1 ≠ x))).filter
      (fun c => decide (c.1 ≠ y))) sid + 1 = 1 := by
    rw [refcount_erase _ hkeys1 y sid hy1]; exact hrc1A
  have hrc2A : refcount ((env.filter (fun c => decide (c.1 ≠ x))).filter
      (fun c => decide (c.1 ≠ y))) sid = 0 := by omega
  have hdes : destroyOp sys sid = Except.ok
      (setSession { sys with reg := release sys.reg s.devs }
        { s with st := SessionState.destroyed, shape := none, devs := [], exe := none }) := by
    unfold destroyOp
    rw [hfind]
  have hstep2 : delVar sys (env.filter (fun c => decide (c.1 ≠ x))) y =
      (setSession { sys with reg := release sys.reg s.devs }
        { s with st := SessionState.destroyed, shape := none, devs := [], exe := none },
       (env.filter (fun c => decide (c.1 ≠ x))).filter (fun c => decide (c.1 ≠ y))) := by
    have hrc2B : refcount (env.filter
        (fun a => !decide (a.1 = y) && !decide (a.1 = x))) sid = 0 := by
      have hcopy := hrc2A
      simp only [decide_not, List.filter_filter] at hcopy
      exact hcopy
    unfold delVar
    rw [hfy]
    simp [hrc2B, hdes]
  refine ⟨_, hstep1, hfind, hrc1A, ⟨_, _, hstep2, hrc2A, ?_, ?_⟩, ?_⟩
  · exact findSession_setSession _ sid s _ hfind hssid
  · intro d hd st hst
    exact snapshot_release_free sys.reg s.devs d hd st hst
  · intro ns
    have hre : reassign sys env x ns =
        ({ sys with sessions := sys.sessions ++ [freshSession ns] },
         (x, ns.sid) :: env.filter (fun c => decide (c.1 ≠ x))) := by
      unfold reassign
      rw [hstep1]
    refine ⟨_, _, hre, rfl, ?_, ?_⟩
    · show (sys.sessions ++ [freshSession ns]).find? (fun t => decide (t.sid = sid)) = some s
      exact find?_append_left hfind
    · intro hnssid
      show refcount ((x, ns.sid) :: env.filter (fun c => decide (c.1 ≠ x))) sid = 1
      unfold refcount
      rw [List.filter_cons, if_neg (by simp [hnssid])]
      exact hrc1A

/-- Witness for C9: two notebook variables aliasing the demo session. -/
theorem C9_alias_refcount_witness :
    ∃ env1, delVar (compilePost demoSys 1 7) [("a", 1), ("b", 1)] "a" =
        (compilePost demoSys 1 7, env1) ∧
      findSession (compilePost demoSys 1 7) 1 =
        some ⟨1, 10, 2, SessionState.ready, some 7, [0, 1], some ⟨Nat.pair 10 7, 2⟩⟩ ∧
      refcount env1 1 = 1 ∧
      (∃ sys2 env2, delVar (compilePost demoSys 1 7) env1 "b" = (sys2, env2) ∧
        refcount env2 1 = 0 ∧
        findSession sys2 1 = some ⟨1, 10, 2, SessionState.destroyed, none, [], none⟩ ∧
        (∀ d ∈ ([0, 1] : DeviceSet), ∀ st,
          (d, st) ∈ inventory_snapshot sys2.reg → st = DevState.free)) ∧
      (∀ ns : NewSessionSpec, ∃ sysR envR,
        reassign (compilePost demoSys 1 7) [("a", 1), ("b", 1)] "a" ns = (sysR, envR) ∧
        sysR.reg = (compilePost demoSys 1 7).reg ∧
        findSession sysR 1 =
          some ⟨1, 10, 2, SessionState.ready, some 7, [0, 1], some ⟨Nat.pair 10 7, 2⟩⟩ ∧
        (ns.sid ≠ 1 → refcount envR 1 = 1)) :=
  C9_alias_refcount (compilePost demoSys 1 7) [("a", 1), ("b", 1)] "a" "b" 1
    ⟨1, 10, 2, SessionState.ready, some 7, [0, 1], some ⟨Nat.pair 10 7, 2⟩⟩
    (by decide) (by decide) (by decide) (by decide) (by decide) (by decide)

/-- C7: `reassign` on a variable holding a session's only live reference
destroys the old session and releases its devices strictly before the new
session can reserve anything: in the state produced by `reassign` (the
only state from which the new session will reserve), the old session is
destroyed, each device it held is Free in the inventory, the new session
is still `Created` and holds no devices, and the Free pool has not
shrunk — so no intermediate state over-subscribes the pool. -/
theorem C7_reassign_release_before_reserve (sys : Sys) (env : Env) (x : Var)
    (sid : SessionId) (s : Session) (ns : NewSessionSpec)
    (hkeys : (env.map (fun b => b.1)).Nodup)
    (hx : (x, sid) ∈ env)
    (hrc : refcount env sid = 1)
    (hfind : findSession sys sid = some s)
    (hfresh : ∀ t ∈ sys.sessions, t.sid ≠ ns.sid) :
    ∃ sys1 env1, reassign sys env x ns = (sys1, env1) ∧
      findSession sys1 sid = some { s with st := SessionState.destroyed,
                                           shape := none, devs := [], exe := none } ∧
      (∀ d ∈ s.devs, ∀ st, (d, st) ∈ inventory_snapshot sys1.reg → st = DevState.free) ∧
      findSession sys1 ns.sid = some (freshSession ns) ∧
      (freshSession ns).st = SessionState.created ∧
      (freshSession ns).devs = [] ∧
      sys1.reg = release sys.reg s.devs ∧
      freeCount sys.reg ≤ freeCount sys1.reg := by
  obtain ⟨hs, hssid⟩ := findSession_elim sys sid s hfind
  have hfx := find?_key env hkeys x sid hx
  have hrc0 : refcount (env.filter (fun c => decide (c.1 ≠ x))) sid + 1 = 1 := by
    rw [refcount_erase env hkeys x sid hx]; exact hrc
  have hrc0A : refcount (env.filter (fun c => !decide (c.1 = x))) sid = 0 := by
    have hcopy : refcount (env.filter (fun c => decide (c.1 ≠ x))) sid = 0 := by omega
    simp only [decide_not] at hcopy
    exact hcopy
  have hdes : destroyOp sys sid = Except.ok
      (setSession { sys with reg := release sys.reg s.devs }
        { s with st := SessionState.destroyed, shape := none, devs := [], exe := none }) := by
    unfold destroyOp
    rw [hfind]
  have hstep : delVar sys env x =
      (setSession { sys with reg := release sys.reg s.devs }
        { s with st := SessionState.destroyed, shape := none, devs := [], exe := none },
       env.filter (fun c => decide (c.1 ≠ x))) := by
    unfold delVar
    rw [hfx]
    simp [hrc0A, hdes]
  have hre : reassign sys env x ns =
      ({ setSession { sys with reg := release sys.reg s.devs }
           { s with st := SessionState.destroyed, shape := none, devs := [], exe := none } with
         sessions := (updateSess sys.sessions
           { s with st := SessionState.destroyed, shape := none, devs := [], exe := none })
             ++ [freshSession ns] },
       (x, ns.sid) :: env.filter (fun c => decide (c.1 ≠ x))) := by
    unfold reassign
    rw [hstep]
    rfl
  have hfindD : (updateSess sys.sessions
      { s with st := SessionState.destroyed, shape := none, devs := [], exe := none }).find?
        (fun t => decide (t.sid = sid)) =
      some { s with st := SessionState.destroyed, shape := none, devs := [], exe := none } := by
    exact find?_updateSess sys.sessions sid s _ hfind hssid
  refine ⟨_, _, hre, ?_, ?_, ?_, rfl, rfl, rfl, freeCount_release_ge sys.reg s.devs⟩
  · show ((updateSess sys.sessions _) ++ [freshSession ns]).find?
      (fun t => decide (t.sid = sid)) = _
    exact find?_append_left hfindD
  · intro d hd st hst
    exact snapshot_release_free sys.reg s.devs d hd st hst
  · show ((updateSess sys.sessions _) ++ [freshSession ns]).find?
      (fun t => decide (t.sid = ns.sid)) = some (freshSession ns)
    have hnone : (updateSess sys.sessions
        { s with st := SessionState.destroyed, shape := none, devs := [], exe := none }).find?
          (fun t => decide (t.sid = ns.sid)) = none := by
      apply List.find?_eq_none.mpr
      intro t ht
      rcases mem_updateSess _ _ t ht with ⟨rfl, _⟩ | ⟨ht1, _⟩
      · simp
        exact hfresh s hs
      · simp
        exact hfresh t ht1
    rw [find?_append_right hnone]
    simp [freshSession]

/-- Witness for C7: reassigning the only variable holding the demo
session to a fresh session specification. -/
theorem C7_reassign_release_before_reserve_witness :
    ∃ sys1 env1, reassign (compilePost demoSys 1 7) [("a", 1)] "a" ⟨3, 30, 2⟩ = (sys1, env1) ∧
      findSession sys1 1 = some ⟨1, 10, 2, SessionState.destroyed, none, [], none⟩ ∧
      (∀ d ∈ ([0, 1] : DeviceSet), ∀ st,
        (d, st) ∈ inventory_snapshot sys1.reg → st = DevState.free) ∧
      findSession sys1 3 = some (freshSession ⟨3, 30, 2⟩) ∧
      (freshSession ⟨3, 30, 2⟩).st = SessionState.created ∧
      (freshSession ⟨3, 30, 2⟩).devs = [] ∧
      sys1.reg = release (compilePost demoSys 1 7).reg [0, 1] ∧
      freeCount (compilePost demoSys 1 7).reg ≤ freeCount sys1.reg :=
  C7_reassign_release_before_reserve (compilePost demoSys 1 7) [("a", 1)] "a" 1
    ⟨1, 10, 2, SessionState.ready, some 7, [0, 1], some ⟨Nat.pair 10 7, 2⟩⟩ ⟨3, 30, 2⟩
    (by decide) (by decide) (by decide) (by decide) (by decide)

theorem string_append_right_inj (r a b : String) (h : r ++ a = r ++ b) : a = b := by
  have hd : (r ++ a).data = (r ++ b).data := congrArg String.data h
  simp only [String.data_append] at hd
  have hab : a.data = b.data := List.append_cancel_left hd
  cases a
  cases b
  exact congrArg String.mk hab

theorem cache_dir_ne (osenv : List (String × String)) (a b : String) (hne : a ≠ b) :
    poplarCacheRoot osenv ++ a ≠ poplarCacheRoot osenv ++ b :=
  fun h => hne (string_append_right_inj (poplarCacheRoot osenv) a b h)

theorem find?_filter_of_imp {α : Type} (l : List α) (p q : α → Bool)
    (himp : ∀ a, p a = true → q a = true) :
    (l.filter q).find? p = l.find? p := by
  induction l with
  | nil => rfl
  | cons a rest ih =>
    cases hp : p a with
    | true =>
      have hq := himp a hp
      rw [List.filter_cons, if_pos (by simp [hq]), List.find?_cons_of_pos _ hp,
        List.find?_cons_of_pos _ hp]
    | false =>
      cases hq : q a with
      | true =>
        rw [List.filter_cons, if_pos (by simp [hq]), List.find?_cons_of_neg _ (by simp [hp]),
          List.find?_cons_of_neg _ (by simp [hp])]
        exact ih
      | false =>
        rw [List.filter_cons, if_neg (by simp [hq]), List.find?_cons_of_neg _ (by simp [hp])]
        exact ih

theorem lookupAt_storeAt_other (g : GlobalCache) (d1 d2 : String)
    (k k2 : ModelId × ShapeSig) (e : ExecutableEntry) (hne : d1 ≠ d2) :
    lookupAt (storeAt g d2 k2 e) d1 k = lookupAt g d1 k := by
  unfold lookupAt storeAt
  rw [List.find?_cons_of_neg _ (by
    simp only [decide_eq_true_eq]
    intro he
    exact hne (congrArg Prod.fst he.symm))]
  rw [find?_filter_of_imp]
  intro a ha
  simp only [decide_eq_true_eq] at ha ⊢
  intro he
  exact hne (congrArg Prod.fst (ha.symm.trans he))



theorem getenvOr_some (osenv : List (String × String)) (key dflt : String)
    (kv : String × String)
    (h : osenv.find? (fun b => decide (b.1 = key)) = some kv) :
    getenvOr osenv key dflt = kv.2 := by
  unfold getenvOr
  rw [h]

theorem getenvOr_none (osenv : List (String × String)) (key dflt : String)
    (h : osenv.find? (fun b => decide (b.1 = key)) = none) :
    getenvOr osenv key dflt = dflt := by
  unfold getenvOr
  rw [h]

theorem append_ne_self_of_ne_empty (r s : String) (hs : s ≠ "") : r ≠ r ++ s := by
  intro he
  apply hs
  have h0 : r ++ "" = r ++ s := by
    rw [String.append_empty]
    exact he
  exact (string_append_right_inj r "" s h0).symm

theorem default_root_ne (s : String) :
    ("./exe_cache/" : String) ≠ "/tmp/exe_cache/" ++ s := by
  intro h
  have hl := congrArg String.length h
  rw [String.length_append] at hl
  have h2 : (12 : Nat) = 15 + s.length := hl
  omega

theorem sentiment_ne_suffixed (osenv : List (String × String)) (s : String) (hs : s ≠ "") :
    sentiment_analysis_cache_dir osenv ≠ poplarCacheRoot osenv ++ s := by
  cases henv : osenv.find? (fun b => decide (b.1 = "POPLAR_EXECUTABLE_CACHE_DIR")) with
  | some kv =>
    unfold sentiment_analysis_cache_dir poplarCacheRoot
    rw [getenvOr_some _ _ _ kv henv, getenvOr_some _ _ _ kv henv]
    exact append_ne_self_of_ne_empty kv.2 s hs
  | none =>
    unfold sentiment_analysis_cache_dir poplarCacheRoot
    rw [getenvOr_none _ _ _ henv, getenvOr_none _ _ _ henv]
    exact default_root_ne s

theorem pairwise_ne_of_root (osenv : List (String × String)) (L : List String)
    (hL : L.Pairwise (fun a b => a ≠ b)) (hne : ∀ s ∈ L, s ≠ "") :
    List.Pairwise (fun a b => a ≠ b)
      (sentiment_analysis_cache_dir osenv ::
        L.map (fun s => poplarCacheRoot osenv ++ s)) := by
  constructor
  · intro b hb
    rcases List.mem_map.mp hb with ⟨s, hs, rfl⟩
    exact sentiment_ne_suffixed osenv s (hne s hs)
  · rw [List.pairwise_map]
    exact hL.imp (fun h => cache_dir_ne osenv _ _ h)

/-- C10 counterexample: the sentiment-analysis notebook does not
namespace its executable cache under the shared root plus a nonempty
application-specific suffix — its `executable_cache_dir` is the bare
cache root itself. -/
theorem C10_sentiment_not_namespaced :
    ¬ namespacedUnderRoot sentiment_analysis_cache_dir := by
  rintro ⟨suffix, hne, hall⟩
  have h1 := hall [("POPLAR_EXECUTABLE_CACHE_DIR", "/r")]
  have h2 : ("/r" : String) = "/r" ++ suffix := h1
  apply hne
  have h0 : ("/r" : String) ++ "" = "/r" ++ suffix := by
    rw [String.append_empty]
    exact h2
  exact (string_append_right_inj "/r" "" suffix h0).symm

/-- C10 (amended): six of the seven applications namespace their
executable caches under the shared root plus a distinct
application-specific suffix; the sentiment-analysis notebook uses the
bare cache root with no suffix.  All seven cache directories are
nevertheless pairwise distinct in every environment, and an entry stored
under one application's directory is never returned by a lookup under
another's, even for an identical (model, ShapeSignature) key. -/
theorem C10_cache_namespacing_amended (osenv : List (String × String)) :
    namespacedUnderRoot wav2vec2_inference_cache_dir ∧
    namespacedUnderRoot wav2vec2_fine_tuning_cache_dir ∧
    namespacedUnderRoot stablediffusion_inpainting_cache_dir ∧
    namespacedUnderRoot stablediffusion_img2img_cache_dir ∧
    namespacedUnderRoot stablediffusion2_text2img_cache_dir ∧
    namespacedUnderRoot external_model_cache_dir ∧
    List.Pairwise (fun a b => a ≠ b)
      [sentiment_analysis_cache_dir osenv,
       wav2vec2_inference_cache_dir osenv, wav2vec2_fine_tuning_cache_dir osenv,
       stablediffusion_inpainting_cache_dir osenv, stablediffusion_img2img_cache_dir osenv,
       stablediffusion2_text2img_cache_dir osenv, external_model_cache_dir osenv] ∧
    (∀ (g : GlobalCache) (d1 d2 : String) (k k2 : ModelId × ShapeSig) (e : ExecutableEntry),
      d1 ≠ d2 → lookupAt (storeAt g d2 k2 e) d1 k = lookupAt g d1 k) := by
  refine ⟨⟨"/wav2vec2_inference", by decide, fun _ => rfl⟩,
    ⟨"/wav2vec2_fine_tuning", by decide, fun _ => rfl⟩,
    ⟨"/stablediffusion_inpainting", by decide, fun _ => rfl⟩,
    ⟨"/stablediffusion_img2img", by decide, fun _ => rfl⟩,
    ⟨"/stablediffusion2_text2img", by decide, fun _ => rfl⟩,
    ⟨"/external_model", by decide, fun _ => rfl⟩, ?_, ?_⟩
  · show List.Pairwise (fun a b => a ≠ b)
      (sentiment_analysis_cache_dir osenv ::
        (["/wav2vec2_inference", "/wav2vec2_fine_tuning", "/stablediffusion_inpainting",
          "/stablediffusion_img2img", "/stablediffusion2_text2img",
          "/external_model"].map (fun s => poplarCacheRoot osenv ++ s)))
    exact pairwise_ne_of_root osenv _ (by decide) (by decide)
  · intro g d1 d2 k k2 e hne
    exact lookupAt_storeAt_other g d1 d2 k k2 e hne

/-- Witness for the amended C10 in the empty environment: the seven
default directories are pairwise distinct and a store under the
fine-tuning directory is invisible to a lookup under the
sentiment-analysis directory for the same key. -/
theorem C10_cache_namespacing_amended_witness :
    namespacedUnderRoot wav2vec2_inference_cache_dir ∧
    List.Pairwise (fun a b => a ≠ b)
      [sentiment_analysis_cache_dir [],
       wav2vec2_inference_cache_dir [], wav2vec2_fine_tuning_cache_dir [],
       stablediffusion_inpainting_cache_dir [], stablediffusion_img2img_cache_dir [],
       stablediffusion2_text2img_cache_dir [], external_model_cache_dir []] ∧
    lookupAt (storeAt [] (wav2vec2_fine_tuning_cache_dir []) (10, 7) ⟨0, 2⟩)
        (sentiment_analysis_cache_dir []) (10, 7) =
      lookupAt [] (sentiment_analysis_cache_dir []) (10, 7) :=
  ⟨(C10_cache_namespacing_amended []).1,
   (C10_cache_namespacing_amended []).2.2.2.2.2.2.1,
   (C10_cache_namespacing_amended []).2.2.2.2.2.2.2 []
     (sentiment_analysis_cache_dir []) (wav2vec2_fine_tuning_cache_dir [])
     (10, 7) (10, 7) ⟨0, 2⟩ (by decide)⟩
